import Mathlib

/-!
Verification development for the MSM-Config asset pipeline.

Shallow embedding of the Python sources:
- `binfile` models `src/binfile.py` (aligned binary codec over a byte store);
- `animation` models the serializable records of `src/animation.py` at the
  byte level (4-byte float fields are modelled by their 32-bit patterns);
- `processor` models `src/processor.py` (alpha bounding boxes);
- `builder` models `src/builder.py` (animation graph assembly, numeric
  fields embedded as exact rationals);
- `compiler` models `src/compiler.py` (spritesheet packing and the
  source back-fill step of `compile_animations`).
-/

namespace binfile

/-- The file object of `BinFile`: a byte store addressed by `Nat`
together with the cursor position. Bytes are `Nat` values; the store is
total (a fresh write-mode file reads skipped bytes as zero, modelled by
whatever the initial store holds, which reads never inspect). -/
structure BFState where
  mem : Nat → Nat
  pos : Nat

/-- Cursor position after `BinFile.__alignSeek`: advance to the next
multiple of `size` when not already aligned (`size - offset if (offset :=
self.tell() % size) != 0 else 0`). -/
def alignPos (p size : Nat) : Nat :=
  if p % size ≠ 0 then p + (size - p % size) else p

/-- `BinFile.__alignSeek`. -/
def alignSeek (st : BFState) (size : Nat) : BFState :=
  ⟨st.mem, alignPos st.pos size⟩

/-- Raw sequential byte write (`self.fp.write`). -/
def writeBytes : BFState → List Nat → BFState
  | st, [] => st
  | st, b :: bs => writeBytes ⟨Function.update st.mem st.pos b, st.pos + 1⟩ bs

/-- Raw sequential byte read (`self.fp.read(k)`) starting at `p`. -/
def readBytes (m : Nat → Nat) : Nat → Nat → List Nat
  | _, 0 => []
  | p, k + 1 => m p :: readBytes m (p + 1) k

/-- Little-endian byte decomposition used by `struct.pack` for the
unsigned formats `B`, `H`, `I`. -/
def natToBytesLE : Nat → Nat → List Nat
  | 0, _ => []
  | k + 1, v => v % 256 :: natToBytesLE k (v / 256)

/-- Little-endian byte recomposition used by `struct.unpack`. -/
def bytesLEToNat : List Nat → Nat
  | [] => 0
  | b :: bs => b + 256 * bytesLEToNat bs

/-- `BinFile.write` for an unsigned scalar of width `size`: align the
cursor to `size`, then emit the `size` little-endian bytes of `v`. -/
def writeUIntN (st : BFState) (size v : Nat) : BFState :=
  writeBytes (alignSeek st size) (natToBytesLE size v)

/-- `BinFile.read` + `struct.unpack` for an unsigned scalar of width
`size`: align, read `size` bytes, return the value and the new cursor. -/
def readUIntN (m : Nat → Nat) (p size : Nat) : Nat × Nat :=
  let a := alignPos p size
  (bytesLEToNat (readBytes m a size), a + size)

/-- Two's-complement representation of a signed value in `8*size` bits,
as produced by `struct.pack` for the formats `b`, `h`, `i`. -/
def toTwos (size : Nat) (v : Int) : Nat :=
  (v % ((2 ^ (8 * size) : Nat) : Int)).toNat

/-- Two's-complement decoding as performed by `struct.unpack` for the
signed formats. -/
def fromTwos (size u : Nat) : Int :=
  if u < 2 ^ (8 * size - 1) then (u : Int) else (u : Int) - (2 ^ (8 * size) : Nat)

/-- `BinFile.write` for a signed scalar. -/
def writeIntN (st : BFState) (size : Nat) (v : Int) : BFState :=
  writeUIntN st size (toTwos size v)

/-- `BinFile.read` for a signed scalar. -/
def readIntN (m : Nat → Nat) (p size : Nat) : Int × Nat :=
  let r := readUIntN m p size
  (fromTwos size r.1, r.2)

/-- The string padding of `BinFile.__stringSeek`: `4 - len % 4` when the
remainder is non-zero, else exactly `4`. -/
def stringPad (len : Nat) : Nat :=
  if len % 4 ≠ 0 then 4 - len % 4 else 4

/-- `BinFile.writeString`: a 4-byte unsigned length field holding
`len(s) + 1`, the raw bytes of `s`, then the cursor skips the padding.
Strings are modelled as lists of ASCII byte values. -/
def writeString (st : BFState) (s : List Nat) : BFState :=
  let st1 := writeUIntN st 4 (s.length + 1)
  let st2 := writeBytes st1 s
  ⟨st2.mem, st2.pos + stringPad s.length⟩

/-- `BinFile.readString`: read the 4-byte length field, subtract one,
read that many raw bytes, then skip the padding computed from the
decoded length. Returns the string and the final cursor. -/
def readString (m : Nat → Nat) (p : Nat) : List Nat × Nat :=
  let r := readUIntN m p 4
  let len := r.1 - 1
  (readBytes m r.2 len, r.2 + len + stringPad len)

/-- `m'` agrees with `m` on all addresses below `b`. -/
def MemEqBelow (mA mB : Nat → Nat) (b : Nat) : Prop :=
  ∀ q, q < b → mA q = mB q

/-- A well-behaved writer: the cursor never moves backwards, and no byte
strictly below the starting cursor is modified. -/
def WriterOk (f : BFState → BFState) : Prop :=
  ∀ st : BFState, st.pos ≤ (f st).pos ∧ ∀ q, q < st.pos → (f st).mem q = st.mem q

end binfile

namespace animation

open binfile

/-- A 4-byte IEEE-754 float field at the codec level, modelled by its
32-bit pattern: `struct.pack` emits exactly the four bytes of the
pattern, so the byte-level behaviour of `writeFloat`/`readFloat` is that
of a 4-byte aligned unsigned field. -/
def writeFloatB (st : BFState) (v : Nat) : BFState := writeUIntN st 4 v

/-- Byte-level `readFloat` (see `writeFloatB`). -/
def readFloatB (m : Nat → Nat) (p : Nat) : Nat × Nat := readUIntN m p 4

/-- The `ImmediateState` enum of `animation.py`. -/
inductive ImmediateState where
  | UNSET
  | SET
  | NONE
deriving DecidableEq

def ImmediateState.toInt : ImmediateState → Int
  | .UNSET => -1
  | .SET => 0
  | .NONE => 1

/-- `ImmediateState(value)`: fails on any value outside the enum. -/
def ImmediateState.ofInt (v : Int) : Option ImmediateState :=
  if v = -1 then some .UNSET
  else if v = 0 then some .SET
  else if v = 1 then some .NONE
  else none

/-- `ImmediateState.write`: `bf.writeInt8(self.value)`. -/
def ImmediateState.write (st : BFState) (v : ImmediateState) : BFState :=
  writeIntN st 1 v.toInt

/-- `ImmediateState.read`: `cls(bf.readInt8())`. -/
def ImmediateState.read (m : Nat → Nat) (p : Nat) : Option (ImmediateState × Nat) :=
  let r := readIntN m p 1
  (ImmediateState.ofInt r.1).map (fun v => (v, r.2))

/-- The `BlendMode` enum of `animation.py`. -/
inductive BlendMode where
  | NORMAL
  | ADDITIVE
  | SUBTRACTIVE
deriving DecidableEq

def BlendMode.toNat : BlendMode → Nat
  | .NORMAL => 0
  | .ADDITIVE => 1
  | .SUBTRACTIVE => 2

/-- `BlendMode(value)`: fails on any value outside the enum. -/
def BlendMode.ofValue (v : Nat) : Option BlendMode :=
  if v = 0 then some .NORMAL
  else if v = 1 then some .ADDITIVE
  else if v = 2 then some .SUBTRACTIVE
  else none

/-- `BlendMode.write`: `bf.writeUInt32(self.value)`. -/
def BlendMode.write (st : BFState) (v : BlendMode) : BFState :=
  writeUIntN st 4 v.toNat

/-- `BlendMode.read`: `cls(bf.readUInt32())`. -/
def BlendMode.read (m : Nat → Nat) (p : Nat) : Option (BlendMode × Nat) :=
  let r := readUIntN m p 4
  (BlendMode.ofValue r.1).map (fun v => (v, r.2))

/-- `Position` dataclass; the two float fields carry 32-bit patterns. -/
structure Position where
  immediate : ImmediateState
  x : Nat
  y : Nat
deriving DecidableEq

def Position.write (st : BFState) (v : Position) : BFState :=
  writeFloatB (writeFloatB (ImmediateState.write st v.immediate) v.x) v.y

def Position.read (m : Nat → Nat) (p : Nat) : Option (Position × Nat) :=
  match ImmediateState.read m p with
  | none => none
  | some (imm, p1) =>
    let r2 := readFloatB m p1
    let r3 := readFloatB m r2.2
    some (⟨imm, r2.1, r3.1⟩, r3.2)

/-- `Scale` dataclass. -/
structure Scale where
  immediate : ImmediateState
  x : Nat
  y : Nat
deriving DecidableEq

def Scale.write (st : BFState) (v : Scale) : BFState :=
  writeFloatB (writeFloatB (ImmediateState.write st v.immediate) v.x) v.y

def Scale.read (m : Nat → Nat) (p : Nat) : Option (Scale × Nat) :=
  match ImmediateState.read m p with
  | none => none
  | some (imm, p1) =>
    let r2 := readFloatB m p1
    let r3 := readFloatB m r2.2
    some (⟨imm, r2.1, r3.1⟩, r3.2)

/-- `Value` dataclass. -/
structure Value where
  immediate : ImmediateState
  value : Nat
deriving DecidableEq

def Value.write (st : BFState) (v : Value) : BFState :=
  writeFloatB (ImmediateState.write st v.immediate) v.value

def Value.read (m : Nat → Nat) (p : Nat) : Option (Value × Nat) :=
  match ImmediateState.read m p with
  | none => none
  | some (imm, p1) =>
    let r2 := readFloatB m p1
    some (⟨imm, r2.1⟩, r2.2)

/-- `Color` dataclass: three signed 8-bit channels. -/
structure Color where
  immediate : ImmediateState
  r : Int
  g : Int
  b : Int
deriving DecidableEq

def Color.write (st : BFState) (v : Color) : BFState :=
  writeIntN (writeIntN (writeIntN (ImmediateState.write st v.immediate) 1 v.r) 1 v.g) 1 v.b

def Color.read (m : Nat → Nat) (p : Nat) : Option (Color × Nat) :=
  match ImmediateState.read m p with
  | none => none
  | some (imm, p1) =>
    let r2 := readIntN m p1 1
    let r3 := readIntN m r2.2 1
    let r4 := readIntN m r3.2 1
    some (⟨imm, r2.1, r3.1, r4.1⟩, r4.2)

/-- `Sprite` dataclass: immediate tag plus an ASCII string name. -/
structure Sprite where
  immediate : ImmediateState
  name : List Nat
deriving DecidableEq

def Sprite.write (st : BFState) (v : Sprite) : BFState :=
  writeString (ImmediateState.write st v.immediate) v.name

def Sprite.read (m : Nat → Nat) (p : Nat) : Option (Sprite × Nat) :=
  match ImmediateState.read m p with
  | none => none
  | some (imm, p1) =>
    let r2 := readString m p1
    some (⟨imm, r2.1⟩, r2.2)

/-- `Frame` dataclass: a float timestamp and the six channels, written
in struct-declaration order. -/
structure Frame where
  time : Nat
  position : Position
  scale : Scale
  rotation : Value
  opacity : Value
  sprite : Sprite
  color : Color
deriving DecidableEq

def Frame.write (st : BFState) (f : Frame) : BFState :=
  Color.write
    (Sprite.write
      (Value.write
        (Value.write
          (Scale.write
            (Position.write (writeFloatB st f.time) f.position)
            f.scale)
          f.rotation)
        f.opacity)
      f.sprite)
    f.color

def Frame.read (m : Nat → Nat) (p : Nat) : Option (Frame × Nat) :=
  let r1 := readFloatB m p
  match Position.read m r1.2 with
  | none => none
  | some (pos, p2) =>
    match Scale.read m p2 with
    | none => none
    | some (sc, p3) =>
      match Value.read m p3 with
      | none => none
      | some (rot, p4) =>
        match Value.read m p4 with
        | none => none
        | some (op, p5) =>
          match Sprite.read m p5 with
          | none => none
          | some (spr, p6) =>
            match Color.read m p6 with
            | none => none
            | some (col, p7) => some (⟨r1.1, pos, sc, rot, op, spr, col⟩, p7)

def writeFrames (st : BFState) (fs : List Frame) : BFState :=
  fs.foldl Frame.write st

def readFrames (m : Nat → Nat) : Nat → Nat → Option (List Frame × Nat)
  | p, 0 => some ([], p)
  | p, k + 1 =>
    match Frame.read m p with
    | none => none
    | some (f, p1) =>
      match readFrames m p1 k with
      | none => none
      | some (fs, p2) => some (f :: fs, p2)

/-- `Layer` dataclass. -/
structure Layer where
  name : List Nat
  type : Int
  blend : BlendMode
  parent : Int
  id : Int
  source : Int
  width : Nat
  height : Nat
  anchor_x : Nat
  anchor_y : Nat
  metadata : List Nat
  frames : List Frame
deriving DecidableEq

def Layer.write (st : BFState) (l : Layer) : BFState :=
  let s1 := writeString st l.name
  let s2 := writeIntN s1 4 l.type
  let s3 := BlendMode.write s2 l.blend
  let s4 := writeIntN s3 2 l.parent
  let s5 := writeIntN s4 2 l.id
  let s6 := writeIntN s5 2 l.source
  let s7 := writeUIntN s6 2 l.width
  let s8 := writeUIntN s7 2 l.height
  let s9 := writeFloatB s8 l.anchor_x
  let s10 := writeFloatB s9 l.anchor_y
  let s11 := writeString s10 l.metadata
  let s12 := writeUIntN s11 4 l.frames.length
  writeFrames s12 l.frames

def Layer.read (m : Nat → Nat) (p : Nat) : Option (Layer × Nat) :=
  let r1 := readString m p
  let r2 := readIntN m r1.2 4
  match BlendMode.read m r2.2 with
  | none => none
  | some (blend, p3) =>
    let r4 := readIntN m p3 2
    let r5 := readIntN m r4.2 2
    let r6 := readIntN m r5.2 2
    let r7 := readUIntN m r6.2 2
    let r8 := readUIntN m r7.2 2
    let r9 := readFloatB m r8.2
    let r10 := readFloatB m r9.2
    let r11 := readString m r10.2
    let r12 := readUIntN m r11.2 4
    match readFrames m r12.2 r12.1 with
    | none => none
    | some (fs, pEnd) =>
      some (⟨r1.1, r2.1, blend, r4.1, r5.1, r6.1, r7.1, r8.1, r9.1, r10.1, r11.1, fs⟩, pEnd)

def writeLayers (st : BFState) (ls : List Layer) : BFState :=
  ls.foldl Layer.write st

def readLayers (m : Nat → Nat) : Nat → Nat → Option (List Layer × Nat)
  | p, 0 => some ([], p)
  | p, k + 1 =>
    match Layer.read m p with
    | none => none
    | some (l, p1) =>
      match readLayers m p1 k with
      | none => none
      | some (ls, p2) => some (l :: ls, p2)

/-- `Animation` dataclass. -/
structure Animation where
  name : List Nat
  width : Nat
  height : Nat
  loop_offset : Nat
  centered : Nat
  layers : List Layer
deriving DecidableEq

def Animation.write (st : BFState) (a : Animation) : BFState :=
  let s1 := writeString st a.name
  let s2 := writeUIntN s1 2 a.width
  let s3 := writeUIntN s2 2 a.height
  let s4 := writeFloatB s3 a.loop_offset
  let s5 := writeUIntN s4 4 a.centered
  let s6 := writeUIntN s5 4 a.layers.length
  writeLayers s6 a.layers

def Animation.read (m : Nat → Nat) (p : Nat) : Option (Animation × Nat) :=
  let r1 := readString m p
  let r2 := readUIntN m r1.2 2
  let r3 := readUIntN m r2.2 2
  let r4 := readFloatB m r3.2
  let r5 := readUIntN m r4.2 4
  let r6 := readUIntN m r5.2 4
  match readLayers m r6.2 r6.1 with
  | none => none
  | some (ls, pEnd) => some (⟨r1.1, r2.1, r3.1, r4.1, r5.1, ls⟩, pEnd)

/-- `Source` dataclass. -/
structure Source where
  path : List Nat
  id : Nat
  width : Nat
  height : Nat
deriving DecidableEq

def Source.write (st : BFState) (s : Source) : BFState :=
  writeUIntN (writeUIntN (writeUIntN (writeString st s.path) 2 s.id) 2 s.width) 2 s.height

def Source.read (m : Nat → Nat) (p : Nat) : Source × Nat :=
  let r1 := readString m p
  let r2 := readUIntN m r1.2 2
  let r3 := readUIntN m r2.2 2
  let r4 := readUIntN m r3.2 2
  (⟨r1.1, r2.1, r3.1, r4.1⟩, r4.2)

/-! Well-formedness of record fields: each numeric field fits the range
of its declared width, strings are ASCII and their length field fits in
32 bits. These are the validity conditions under which `struct.pack`
accepts the corresponding Python values. -/

abbrev WFstring (s : List Nat) : Prop := s.length + 1 < 2 ^ 32 ∧ ∀ b ∈ s, b < 128
abbrev WFfloat (v : Nat) : Prop := v < 2 ^ 32
abbrev WFu16 (v : Nat) : Prop := v < 2 ^ 16
abbrev WFu32 (v : Nat) : Prop := v < 2 ^ 32
abbrev WFi8 (v : Int) : Prop := -(2 ^ 7) ≤ v ∧ v < 2 ^ 7
abbrev WFi16 (v : Int) : Prop := -(2 ^ 15) ≤ v ∧ v < 2 ^ 15
abbrev WFi32 (v : Int) : Prop := -(2 ^ 31) ≤ v ∧ v < 2 ^ 31

abbrev Position.WF (v : Position) : Prop := WFfloat v.x ∧ WFfloat v.y
abbrev Scale.WF (v : Scale) : Prop := WFfloat v.x ∧ WFfloat v.y
abbrev Value.WF (v : Value) : Prop := WFfloat v.value
abbrev Color.WF (v : Color) : Prop := WFi8 v.r ∧ WFi8 v.g ∧ WFi8 v.b
abbrev Sprite.WF (v : Sprite) : Prop := WFstring v.name

abbrev Frame.WF (f : Frame) : Prop :=
  WFfloat f.time ∧ f.position.WF ∧ f.scale.WF ∧ f.rotation.WF ∧
    f.opacity.WF ∧ f.sprite.WF ∧ f.color.WF

abbrev Layer.WF (l : Layer) : Prop :=
  WFstring l.name ∧ WFi32 l.type ∧ WFi16 l.parent ∧ WFi16 l.id ∧
    WFi16 l.source ∧ WFu16 l.width ∧ WFu16 l.height ∧ WFfloat l.anchor_x ∧
    WFfloat l.anchor_y ∧ WFstring l.metadata ∧ l.frames.length < 2 ^ 32 ∧
    ∀ f ∈ l.frames, f.WF

abbrev Animation.WF (a : Animation) : Prop :=
  WFstring a.name ∧ WFu16 a.width ∧ WFu16 a.height ∧ WFfloat a.loop_offset ∧
    WFu32 a.centered ∧ a.layers.length < 2 ^ 32 ∧ ∀ l ∈ a.layers, l.WF

abbrev Source.WF (s : Source) : Prop :=
  WFstring s.path ∧ WFu16 s.id ∧ WFu16 s.width ∧ WFu16 s.height

end animation

namespace processor

/-- The `AnimationType` enum of `processor.py`. -/
inductive AnimationType where
  | FOLDER
  | COPY
  | FIRST_FRAME
deriving DecidableEq

/-- The `BoundingBox` dataclass of `processor.py`. -/
structure BoundingBox where
  left : Nat
  top : Nat
  right : Nat
  bottom : Nat
deriving DecidableEq

def BoundingBox.width (b : BoundingBox) : Nat := b.right - b.left

def BoundingBox.height (b : BoundingBox) : Nat := b.bottom - b.top

/-- `np.any(alpha > 0, axis=1)` at row `i`: some pixel in the row has
alpha above zero. The image is an `h × w` grid of alpha values. -/
def rowAny (w : Nat) (alpha : Nat → Nat → Nat) (i : Nat) : Bool :=
  (List.range w).any (fun j => decide (0 < alpha i j))

/-- `np.any(alpha > 0, axis=0)` at column `j`. -/
def colAny (h : Nat) (alpha : Nat → Nat → Nat) (j : Nat) : Bool :=
  (List.range h).any (fun i => decide (0 < alpha i j))

/-- `ImageProcessor.find_bbox` on an `h × w` alpha grid: `top`/`bottom`
are the first and last indices of rows containing alpha above zero
(`np.where(rows)[0][[0, -1]]`), `left`/`right` likewise over columns;
the box stores `right + 1` and `bottom + 1` (exclusive bounds). A fully
transparent image raises `ProcessingError`, modelled as `none`. -/
def find_bbox (h w : Nat) (alpha : Nat → Nat → Nat) : Option BoundingBox :=
  let rowIdx := (List.range h).filter (rowAny w alpha)
  let colIdx := (List.range w).filter (colAny h alpha)
  match rowIdx, colIdx with
  | t :: rs, l :: cs =>
    some ⟨l, t, (l :: cs).getLastD 0 + 1, (t :: rs).getLastD 0 + 1⟩
  | _, _ => none

end processor

namespace builder

open processor

/-- Builder-level `Position`: the float fields of `builder.py` are
embedded as exact rationals. -/
structure Position where
  immediate : animation.ImmediateState
  x : ℚ
  y : ℚ
deriving DecidableEq

structure Scale where
  immediate : animation.ImmediateState
  x : ℚ
  y : ℚ
deriving DecidableEq

structure Value where
  immediate : animation.ImmediateState
  value : ℚ
deriving DecidableEq

structure Sprite where
  immediate : animation.ImmediateState
  name : String
deriving DecidableEq

structure Color where
  immediate : animation.ImmediateState
  r : Int
  g : Int
  b : Int
deriving DecidableEq

structure Frame where
  time : ℚ
  position : Position
  scale : Scale
  rotation : Value
  opacity : Value
  sprite : Sprite
  color : Color
deriving DecidableEq

structure Layer where
  name : String
  type : Int
  blend : animation.BlendMode
  parent : Int
  id : Nat
  source : Nat
  width : Nat
  height : Nat
  anchor_x : ℚ
  anchor_y : ℚ
  metadata : String
  frames : List Frame
deriving DecidableEq

structure Animation where
  name : String
  width : Nat
  height : Nat
  loop_offset : ℚ
  centered : Nat
  layers : List Layer
deriving DecidableEq

structure Source where
  path : String
  id : Nat
  width : Nat
  height : Nat
deriving DecidableEq

/-- The `AnimationConfig` dataclass of `builder.py`. -/
structure AnimationConfig where
  name : String
  type : AnimationType
  source_path : Option String := none
  reference_anim : Option String := none
  fps : ℚ := 30
  centered : Bool := true
  blend_mode : animation.BlendMode := animation.BlendMode.NORMAL
  position_x : ℚ := 0
  position_y : ℚ := -70
  scale : ℚ := 100
deriving DecidableEq

/-- `AnimationConfig.frame_time`: `1.0 / self.fps`. -/
def AnimationConfig.frame_time (c : AnimationConfig) : ℚ := 1 / c.fps

/-- Python `f"frame_{i:03d}"`: zero-padded to at least three digits. -/
def spriteName (i : Nat) : String :=
  "frame_" ++ (if i < 10 then "00" else if i < 100 then "0" else "") ++ toString i

/-- `AnimationBuilder._create_frames`. `0.8` denotes the exact rational
four fifths here. -/
def create_frames (target_size : Nat) (frame_count : Nat)
    (config : AnimationConfig) : List Frame :=
  let scale_factor : ℚ := config.scale / 100
  let scale_offset : ℚ := (100 - config.scale) * (8 / 10)
  (List.range frame_count).map (fun (i : Nat) =>
    ⟨(i : ℚ) * config.frame_time,
      ⟨.SET, config.position_x + scale_offset, config.position_y + scale_offset⟩,
      ⟨.SET, (target_size : ℚ) * scale_factor, (target_size : ℚ) * scale_factor⟩,
      ⟨.SET, 0⟩,
      ⟨.SET, 100⟩,
      ⟨.SET, spriteName i⟩,
      ⟨.UNSET, -1, -1, -1⟩⟩)

/-- `AnimationBuilder._create_layer` (the layer counter is passed in
and incremented by the caller in this embedding). -/
def create_layer (target_size : Nat) (frame_count : Nat) (source_id : Nat)
    (config : AnimationConfig) (common_name : String) (layer_counter : Nat) : Layer :=
  ⟨"Anim Maker " ++ common_name, 1, config.blend_mode, -1, layer_counter,
    source_id, target_size, target_size, 0, 0, "",
    create_frames target_size frame_count config⟩

/-- `AnimationBuilder._create_animation`. -/
def create_animation (target_size : Nat) (name : String) (frame_count : Nat)
    (source_id : Nat) (config : AnimationConfig) (common_name : String)
    (layer_counter : Nat) : Animation :=
  ⟨name, target_size, target_size, 0, if config.centered then 1 else 0,
    [create_layer target_size frame_count source_id config common_name layer_counter]⟩

/-- `AnimationBuilder._create_source`. -/
def create_source (name common_name : String) (source_counter : Nat) : Source :=
  ⟨common_name ++ "_" ++ name ++ ".xml", source_counter, 0, 0⟩

/-- Mutable state of `AnimationBuilder.build_all`: the grown lists, the
`source_map` dict (association list in insertion order), the processed
name set, and the two id counters. -/
structure BuildSt where
  sources : List Source
  animations : List Animation
  source_map : List (String × Source)
  processed : List String
  source_counter : Nat
  layer_counter : Nat

/-- `source_map.get(name)`. -/
def lookupSource (mp : List (String × Source)) (k : String) : Option Source :=
  (mp.find? (fun pr => pr.1 == k)).map (fun pr => pr.2)

/-- First pass of `build_all`: FOLDER configs, in insertion order. -/
def pass1 (ts : Nat) (common : String) (fc : String → Option Nat) :
    BuildSt → List AnimationConfig → Except String BuildSt
  | st, [] => Except.ok st
  | st, c :: rest =>
    if c.type = AnimationType.FOLDER then
      match fc c.name with
      | none => Except.error ("No frame count for animation " ++ c.name)
      | some k =>
        let src := create_source c.name common st.source_counter
        pass1 ts common fc
          ⟨st.sources ++ [src],
            st.animations ++ [create_animation ts c.name k src.id c common st.layer_counter],
            st.source_map ++ [(c.name, src)],
            st.processed ++ [c.name],
            st.source_counter + 1, st.layer_counter + 1⟩ rest
    else pass1 ts common fc st rest

/-- Second pass of `build_all`: reference-based configs. The reference
animation is looked up in the *current* animation list and the reference
source in `source_map` (which only pass 1 populates). -/
def pass2 (ts : Nat) (common : String) :
    BuildSt → List AnimationConfig → Except String BuildSt
  | st, [] => Except.ok st
  | st, c :: rest =>
    if c.type = AnimationType.FOLDER ∨ c.name ∈ st.processed then
      pass2 ts common st rest
    else
      match c.reference_anim with
      | none => Except.error ("No reference animation specified for " ++ c.name)
      | some r =>
        match st.animations.find? (fun a => a.name == r) with
        | none => Except.error ("Reference animation " ++ r ++ " not found")
        | some ref_anim =>
          match lookupSource st.source_map r with
          | none => Except.error ("Reference source for " ++ r ++ " not found")
          | some ref_source =>
            match
              (if c.type = AnimationType.FIRST_FRAME then Except.ok 1
               else
                 match ref_anim.layers with
                 | [] => Except.error "list index out of range"
                 | l :: _ => Except.ok l.frames.length : Except String Nat)
            with
            | Except.error e => Except.error e
            | Except.ok k =>
              pass2 ts common
                ⟨st.sources,
                  st.animations ++ [create_animation ts c.name k ref_source.id c common st.layer_counter],
                  st.source_map,
                  st.processed ++ [c.name],
                  st.source_counter, st.layer_counter + 1⟩ rest

/-- Names of the FOLDER-mode configs, in insertion order: exactly the
names pass 1 resolves and records in `processed_names`. -/
def folderNames (cfgs : List AnimationConfig) : List String :=
  (cfgs.filter (fun c => decide (c.type = AnimationType.FOLDER))).map (fun c => c.name)

/-- `AnimationBuilder.build_all` (`bin_name` is accepted and unused,
exactly as in the source). Configs are keyed by `config.name`, matching
`add_animation`. -/
def build_all (ts : Nat) (configs : List AnimationConfig)
    (fc : String → Option Nat) (bin_name common : String) :
    Except String (List Source × List Animation) :=
  let st0 : BuildSt := ⟨[], [], [], [], 0, 0⟩
  match pass1 ts common fc st0 configs with
  | Except.error e => Except.error e
  | Except.ok st1 =>
    match pass2 ts common st1 configs with
    | Except.error e => Except.error e
    | Except.ok st2 =>
      if configs.all (fun c => decide (c.name ∈ st2.processed)) then
        Except.ok (st2.sources, st2.animations)
      else Except.error "Some animations were not processed"

end builder

namespace anim_maker

/-- Control flow of `AnimationManager._process_animations` restricted to
its file-writing effects: directory creation, cleanup and
`compile_animations` (abstracted as `compileWrites`) all run strictly
after `build_all` returns successfully, so a builder failure produces no
file operations at all. -/
def processAnimationsWrites (ts : Nat) (configs : List builder.AnimationConfig)
    (fc : String → Option Nat) (bin_name common : String)
    (compileWrites : List builder.Source × List builder.Animation → List String) :
    List String :=
  match builder.build_all ts configs fc bin_name common with
  | Except.error _ => []
  | Except.ok res => compileWrites res

end anim_maker

namespace compiler

/-- `math.ceil(math.sqrt n)` over the naturals. -/
def ceilSqrt (n : Nat) : Nat :=
  if Nat.sqrt n * Nat.sqrt n = n then Nat.sqrt n else Nat.sqrt n + 1

/-- `Compiler._calculate_spritesheet_size`: returns
`(sheet_width, sheet_height, cols, rows)`. -/
def calculate_spritesheet_size (frame_count : Nat) (frame_size : Nat × Nat) :
    Nat × Nat × Nat × Nat :=
  let cols := ceilSqrt frame_count
  let rows := (frame_count + cols - 1) / cols
  (cols * frame_size.1, rows * frame_size.2, cols, rows)

/-- A processed frame image reduced to its pixel dimensions. -/
structure PImg where
  w : Nat
  h : Nat
deriving DecidableEq

/-- The `SpritesheetData` dataclass (the sheet image reduced to its
dimensions). -/
structure SpritesheetData where
  sheetW : Nat
  sheetH : Nat
  frame_positions : List (Nat × Nat)
  frame_size : Nat × Nat
deriving DecidableEq

/-- `Compiler._create_spritesheet`: frame size comes from the first
frame; frame `i` is pasted at `((i % cols) * w, (i / cols) * h)`. -/
def create_spritesheet (frames : List PImg) : Except String SpritesheetData :=
  match frames with
  | [] => Except.error "No frames provided"
  | f0 :: _ =>
    let fs := (f0.w, f0.h)
    match calculate_spritesheet_size frames.length fs with
    | (w, h, cols, _rows) =>
      Except.ok ⟨w, h,
        (List.range frames.length).map (fun i => ((i % cols) * fs.1, (i / cols) * fs.2)),
        fs⟩

/-- The `xml_paths` dict built by the first loop of
`compile_animations`: keyed by animation *name*, value
`f"{common_name}_{name}.xml"`; empty frame lists are skipped. -/
def xmlPathsOf (processed : List (String × List PImg)) (common : String) :
    List (String × String) :=
  processed.filterMap (fun pr =>
    if pr.2.isEmpty then none else some (pr.1, common ++ "_" ++ pr.1 ++ ".xml"))

def lookupXml (xps : List (String × String)) (k : String) : Option String :=
  (xps.find? (fun pr => pr.1 == k)).map (fun pr => pr.2)

/-- Executable left-to-right non-overlapping substring replacement on
character lists, fuelled by the input length (kernel-evaluable model of
Python `str.replace` for a non-empty pattern). -/
def replaceFuel (pat rep : List Char) : Nat → List Char → List Char
  | 0, s => s
  | _, [] => []
  | fuel + 1, a :: s =>
    if pat.isPrefixOf (a :: s) then
      rep ++ replaceFuel pat rep fuel ((a :: s).drop pat.length)
    else
      a :: replaceFuel pat rep fuel s

/-- Python `str.replace` (the pattern of interest, `"BASENAME"`, is
never empty; an empty pattern returns the string unchanged here). -/
def strReplace (s pattern rep : String) : String :=
  if pattern = "" then s
  else ⟨replaceFuel pattern.data rep.data s.data.length s.data⟩

/-- The per-source body of the back-fill loop of
`Compiler.compile_animations` (`for source in sources:`): replace
`"BASENAME"` in the stored path by the common name, look that string up
among the `xml_paths` *keys*, and only on a hit rewrite the path and
back-fill width/height from the first processed frame of the matching
animation (`next(...)` raising `StopIteration` is modelled as an
error). -/
def backfillSource (processed : List (String × List PImg)) (common : String)
    (xps : List (String × String)) (src : builder.Source) :
    Except String builder.Source :=
  let sourceName := strReplace src.path "BASENAME" common
  match lookupXml xps sourceName with
  | none => Except.ok src
  | some xp =>
    match processed.find? (fun pr => common ++ "_" ++ pr.1 ++ ".xml" == xp) with
    | none => Except.error "StopIteration"
    | some pr =>
      match pr.2 with
      | [] => Except.ok ⟨xp, src.id, src.width, src.height⟩
      | f :: _ => Except.ok ⟨xp, src.id, f.w, f.h⟩

/-- The complete source back-fill step (step 4 of `compile_animations`). -/
def update_sources (sources : List builder.Source)
    (processed : List (String × List PImg)) (common : String) :
    Except String (List builder.Source) :=
  sources.mapM (backfillSource processed common (xmlPathsOf processed common))

end compiler

namespace binfile

/-! ### Basic cursor and store lemmas -/

theorem writeBytes_pos (bs : List Nat) (st : BFState) :
    (writeBytes st bs).pos = st.pos + bs.length := by
  induction bs generalizing st with
  | nil => simp [writeBytes]
  | cons b rest ih =>
    show (writeBytes ⟨Function.update st.mem st.pos b, st.pos + 1⟩ rest).pos = _
    rw [ih]
    simp
    omega

theorem writeBytes_mem_lt (bs : List Nat) : ∀ (st : BFState) (q : Nat),
    q < st.pos → (writeBytes st bs).mem q = st.mem q := by
  induction bs with
  | nil => intro st q _; rfl
  | cons b rest ih =>
    intro st q h
    show (writeBytes ⟨Function.update st.mem st.pos b, st.pos + 1⟩ rest).mem q = _
    rw [ih ⟨Function.update st.mem st.pos b, st.pos + 1⟩ q (by simp; omega)]
    exact Function.update_noteq (by omega) _ _

theorem natToBytesLE_length (k v : Nat) : (natToBytesLE k v).length = k := by
  induction k generalizing v with
  | zero => rfl
  | succ k ih => simp [natToBytesLE, ih]

theorem alignPos_ge (p size : Nat) : p ≤ alignPos p size := by
  unfold alignPos
  split <;> omega

theorem MemEqBelow.mono {mA mB : Nat → Nat} {b b' : Nat}
    (h : MemEqBelow mA mB b) (hb : b' ≤ b) : MemEqBelow mA mB b' :=
  fun q hq => h q (lt_of_lt_of_le hq hb)

theorem WriterOk.comp {f g : BFState → BFState}
    (hf : WriterOk f) (hg : WriterOk g) : WriterOk (fun st => g (f st)) := by
  intro st
  constructor
  · exact le_trans (hf st).1 (hg (f st)).1
  · intro q hq
    rw [(hg (f st)).2 q (lt_of_lt_of_le hq (hf st).1), (hf st).2 q hq]

theorem writerOk_writeBytes (bs : List Nat) : WriterOk (fun st => writeBytes st bs) := by
  intro st
  constructor
  · rw [writeBytes_pos]; omega
  · intro q hq; exact writeBytes_mem_lt bs st q hq

theorem writerOk_alignSeek (size : Nat) : WriterOk (fun st => alignSeek st size) := by
  intro st
  exact ⟨alignPos_ge _ _, fun _ _ => rfl⟩

theorem writerOk_writeUIntN (size v : Nat) : WriterOk (fun st => writeUIntN st size v) :=
  WriterOk.comp (writerOk_alignSeek size) (writerOk_writeBytes _)

theorem writerOk_writeIntN (size : Nat) (v : Int) : WriterOk (fun st => writeIntN st size v) :=
  writerOk_writeUIntN size (toTwos size v)

theorem writerOk_advance (c : Nat) : WriterOk (fun st => ⟨st.mem, st.pos + c⟩) := by
  intro st
  exact ⟨by simp, fun _ _ => rfl⟩

theorem writerOk_writeString (s : List Nat) : WriterOk (fun st => writeString st s) :=
  WriterOk.comp (writerOk_writeUIntN 4 (s.length + 1))
    (WriterOk.comp (writerOk_writeBytes s) (writerOk_advance (stringPad s.length)))

/-- Peel the last writer off an agreement-with-final-store fact. -/
theorem MemEqBelow.peel {W : BFState → BFState} (hW : WriterOk W) {st : BFState}
    {m' : Nat → Nat} (h : MemEqBelow m' (W st).mem (W st).pos) :
    MemEqBelow m' st.mem st.pos := by
  intro q hq
  rw [h q (lt_of_lt_of_le hq (hW st).1), (hW st).2 q hq]

/-! ### Read-after-write lemmas for the primitives -/

theorem writeBytes_mem_get (bs : List Nat) (st : BFState) (j : Nat)
    (h : j < bs.length) : (writeBytes st bs).mem (st.pos + j) = bs.getD j 0 := by
  induction bs generalizing st j with
  | nil => simp at h
  | cons b rest ih =>
    match j with
    | 0 =>
      show (writeBytes ⟨Function.update st.mem st.pos b, st.pos + 1⟩ rest).mem (st.pos + 0) = b
      rw [writeBytes_mem_lt _ _ _ (by simp)]
      simp [Function.update]
    | j + 1 =>
      have := ih ⟨Function.update st.mem st.pos b, st.pos + 1⟩ j (by simpa using h)
      simp only [List.getD_cons_succ]
      rw [show st.pos + (j + 1) = st.pos + 1 + j by omega]
      exact this

theorem readBytes_eq (m' : Nat → Nat) (bs : List Nat) : ∀ p : Nat,
    (∀ j, j < bs.length → m' (p + j) = bs.getD j 0) →
    readBytes m' p bs.length = bs := by
  induction bs with
  | nil => intro p _; rfl
  | cons b rest ih =>
    intro p h
    show m' p :: readBytes m' (p + 1) rest.length = b :: rest
    have hb : m' p = b := by simpa using h 0 (by simp)
    have ht : readBytes m' (p + 1) rest.length = rest := by
      refine ih (p + 1) (fun j hj => ?_)
      have := h (j + 1) (by simpa using Nat.succ_lt_succ hj)
      rw [show p + (j + 1) = p + 1 + j by omega] at this
      simpa using this
    rw [hb, ht]

theorem readBytes_of_agree (bs : List Nat) (st : BFState) (m' : Nat → Nat)
    (h : MemEqBelow m' (writeBytes st bs).mem (st.pos + bs.length)) :
    readBytes m' st.pos bs.length = bs := by
  refine readBytes_eq m' bs st.pos (fun j hj => ?_)
  rw [h (st.pos + j) (by omega), writeBytes_mem_get bs st j hj]

theorem mod_mul_decomp (v a b : Nat) :
    v % (a * b) = v % a + a * (v / a % b) := by
  have h1 := Nat.div_add_mod (v % (a * b)) a
  rw [Nat.mod_mul_right_div_self] at h1
  have h2 : v % (a * b) % a = v % a := Nat.mod_mod_of_dvd v ⟨b, rfl⟩
  rw [h2] at h1
  linarith [h1]

theorem bytesLEToNat_natToBytesLE (k v : Nat) :
    bytesLEToNat (natToBytesLE k v) = v % 2 ^ (8 * k) := by
  induction k generalizing v with
  | zero => simp [natToBytesLE, bytesLEToNat, Nat.mod_one]
  | succ k ih =>
    show v % 256 + 256 * bytesLEToNat (natToBytesLE k (v / 256)) = _
    rw [ih]
    have hpow : (2 : Nat) ^ (8 * (k + 1)) = 256 * 2 ^ (8 * k) := by
      rw [show 8 * (k + 1) = 8 + 8 * k by omega, pow_add]
      norm_num
    rw [hpow, mod_mul_decomp v 256 (2 ^ (8 * k))]

theorem alignPos_mod (p size : Nat) (hs : 0 < size) : alignPos p size % size = 0 := by
  unfold alignPos
  split
  case isTrue h =>
    have h1 : p % size < size := Nat.mod_lt _ hs
    have h2 := Nat.div_add_mod p size
    have h3 : p + (size - p % size) = size * (p / size) + size := by omega
    rw [h3]
    simp [Nat.add_mul_mod_self_left, Nat.mul_mod_right]
  case isFalse h =>
    omega

theorem writeUIntN_pos (st : BFState) (size v : Nat) :
    (writeUIntN st size v).pos = alignPos st.pos size + size := by
  unfold writeUIntN
  rw [writeBytes_pos, natToBytesLE_length]
  rfl

theorem readUIntN_of_agree (st : BFState) (m' : Nat → Nat) (size v : Nat)
    (hv : v < 2 ^ (8 * size))
    (h : MemEqBelow m' (writeUIntN st size v).mem (writeUIntN st size v).pos) :
    readUIntN m' st.pos size = (v, (writeUIntN st size v).pos) := by
  have hagree : MemEqBelow m' (writeBytes (alignSeek st size) (natToBytesLE size v)).mem
      ((alignSeek st size).pos + (natToBytesLE size v).length) := by
    rw [natToBytesLE_length]
    have hp : (alignSeek st size).pos + size = (writeUIntN st size v).pos := by
      rw [writeUIntN_pos]; rfl
    rw [hp]
    exact h
  have hread := readBytes_of_agree (natToBytesLE size v) (alignSeek st size) m' hagree
  rw [natToBytesLE_length] at hread
  show (bytesLEToNat (readBytes m' (alignPos st.pos size) size), alignPos st.pos size + size) = _
  rw [show alignPos st.pos size = (alignSeek st size).pos from rfl, hread,
    bytesLEToNat_natToBytesLE, Nat.mod_eq_of_lt hv, writeUIntN_pos]
  rfl

theorem toTwos_lt (size : Nat) (v : Int) : toTwos size v < 2 ^ (8 * size) := by
  unfold toTwos
  set t : Nat := 2 ^ (8 * size) with ht
  have hpos : (0 : Int) < (t : Int) := by
    rw [ht]; positivity
  have hlt := Int.emod_lt_of_pos v hpos
  have hge := Int.emod_nonneg v (ne_of_gt hpos)
  omega

theorem fromTwos_toTwos (size : Nat) (v : Int) (hs : 0 < size)
    (h1 : -(2 ^ (8 * size - 1)) ≤ v) (h2 : v < 2 ^ (8 * size - 1)) :
    fromTwos size (toTwos size v) = v := by
  unfold fromTwos toTwos
  have hrel0 : (2 : Nat) ^ (8 * size) = 2 ^ (8 * size - 1) * 2 := by
    conv_lhs => rw [show 8 * size = 8 * size - 1 + 1 by omega]
    rw [pow_succ]
  set aN : Nat := 2 ^ (8 * size - 1) with haN
  set bN : Nat := 2 ^ (8 * size) with hbN
  have ha1 : 0 < aN := by rw [haN]; positivity
  have haI : ((aN : Nat) : Int) = 2 ^ (8 * size - 1) := by rw [haN]; push_cast; rfl
  rw [← haI] at h1 h2
  have hbi : (bN : Int) = 2 * (aN : Int) := by rw [hrel0]; push_cast; ring
  rcases le_or_lt 0 v with hv | hv
  · have hmod : v % (bN : Int) = v := Int.emod_eq_of_lt hv (by omega)
    rw [hmod]
    split <;> omega
  · have hv2 : 0 ≤ v + (bN : Int) := by omega
    have hmod : v % (bN : Int) = v + bN := by
      have hstep := Int.add_mul_emod_self_left v (bN : Int) 1
      rw [mul_one] at hstep
      rw [← hstep]
      exact Int.emod_eq_of_lt hv2 (by omega)
    rw [hmod]
    split <;> omega

theorem writeIntN_pos (st : BFState) (size : Nat) (v : Int) :
    (writeIntN st size v).pos = alignPos st.pos size + size :=
  writeUIntN_pos st size (toTwos size v)

theorem readIntN_of_agree (st : BFState) (m' : Nat → Nat) (size : Nat) (v : Int)
    (hs : 0 < size)
    (h1 : -(2 ^ (8 * size - 1)) ≤ v) (h2 : v < 2 ^ (8 * size - 1))
    (h : MemEqBelow m' (writeIntN st size v).mem (writeIntN st size v).pos) :
    readIntN m' st.pos size = (v, (writeIntN st size v).pos) := by
  unfold readIntN writeIntN
  rw [readUIntN_of_agree st m' size (toTwos size v) (toTwos_lt size v) h]
  simp only
  rw [fromTwos_toTwos size v hs h1 h2]

theorem writeString_pos (st : BFState) (s : List Nat) :
    (writeString st s).pos = alignPos st.pos 4 + 4 + s.length + stringPad s.length := by
  show (writeBytes (writeUIntN st 4 (s.length + 1)) s).pos + stringPad s.length = _
  rw [writeBytes_pos, writeUIntN_pos]

theorem readString_of_agree (st : BFState) (m' : Nat → Nat) (s : List Nat)
    (hlen : s.length + 1 < 2 ^ 32)
    (h : MemEqBelow m' (writeString st s).mem (writeString st s).pos) :
    readString m' st.pos = (s, (writeString st s).pos) := by
  have hok1 := writerOk_writeUIntN 4 (s.length + 1)
  have hok2 := writerOk_writeBytes s
  have hok3 := writerOk_advance (stringPad s.length)
  set st1 := writeUIntN st 4 (s.length + 1) with hst1
  set st2 := writeBytes st1 s with hst2
  have hW : writeString st s = ⟨st2.mem, st2.pos + stringPad s.length⟩ := rfl
  have hmem3 : MemEqBelow m' st2.mem (st2.pos + stringPad s.length) := by
    rw [hW] at h
    exact h
  have hmem2 : MemEqBelow m' st2.mem st2.pos := hmem3.mono (by omega)
  have hmem1 : MemEqBelow m' st1.mem st1.pos :=
    @MemEqBelow.peel (fun stX => writeBytes stX s) hok2 st1 m' hmem2
  have hlenfield : readUIntN m' st.pos 4 = (s.length + 1, st1.pos) := by
    refine readUIntN_of_agree st m' 4 (s.length + 1) (by norm_num at hlen ⊢; omega) hmem1
  have hraw : readBytes m' st1.pos s.length = s := by
    refine readBytes_of_agree s st1 m' ?_
    rw [← hst2, ← writeBytes_pos s st1, ← hst2]
    exact hmem2
  show (readBytes m' (readUIntN m' st.pos 4).2 ((readUIntN m' st.pos 4).1 - 1),
    (readUIntN m' st.pos 4).2 + ((readUIntN m' st.pos 4).1 - 1) +
      stringPad ((readUIntN m' st.pos 4).1 - 1)) = _
  rw [hlenfield]
  simp only [Nat.add_sub_cancel]
  rw [hraw, hW]
  have hp2 : st2.pos = st1.pos + s.length := by rw [hst2, writeBytes_pos]
  rw [hp2]

theorem MemEqBelow.refl (m : Nat → Nat) (b : Nat) : MemEqBelow m m b :=
  fun _ _ => rfl

theorem alignPos_eq_self (p size : Nat) (h : p % size = 0) : alignPos p size = p := by
  unfold alignPos
  simp [h]

theorem stringPad_eq (n : Nat) :
    stringPad n = if n % 4 = 0 then 4 else 4 - n % 4 := by
  by_cases h : n % 4 = 0 <;> simp [stringPad, h]

end binfile

/-- Claim C3: every scalar read or write of width `size ∈ {1, 2, 4}` at
cursor position `p` first advances the cursor to `p + (size - p % size)`
when `p % size ≠ 0` and leaves it at `p` otherwise, then transfers
exactly `size` bytes, so the start of the transferred bytes is a
multiple of `size`. -/
theorem scalar_ops_align_cursor (m : Nat → Nat) (p v : Nat) (w : Int) (size : Nat)
    (hsize : size = 1 ∨ size = 2 ∨ size = 4) :
    (p % size ≠ 0 → binfile.alignPos p size = p + (size - p % size)) ∧
    (p % size = 0 → binfile.alignPos p size = p) ∧
    binfile.alignPos p size % size = 0 ∧
    binfile.writeUIntN ⟨m, p⟩ size v =
      binfile.writeBytes ⟨m, binfile.alignPos p size⟩ (binfile.natToBytesLE size v) ∧
    (binfile.natToBytesLE size v).length = size ∧
    binfile.readUIntN m p size =
      (binfile.bytesLEToNat (binfile.readBytes m (binfile.alignPos p size) size),
        binfile.alignPos p size + size) ∧
    binfile.writeIntN ⟨m, p⟩ size w =
      binfile.writeBytes ⟨m, binfile.alignPos p size⟩
        (binfile.natToBytesLE size (binfile.toTwos size w)) := by
  have hpos : 0 < size := by rcases hsize with h | h | h <;> omega
  refine ⟨?_, ?_, binfile.alignPos_mod p size hpos, rfl, binfile.natToBytesLE_length size v,
    rfl, rfl⟩
  · intro h
    simp [binfile.alignPos, h]
  · intro h
    exact binfile.alignPos_eq_self p size h

/-- Witness for C3 at `p = 5`, `size = 2`. -/
theorem scalar_ops_align_cursor_witness :
    ((5 : Nat) % 2 ≠ 0 → binfile.alignPos 5 2 = 5 + (2 - 5 % 2)) ∧
    ((5 : Nat) % 2 = 0 → binfile.alignPos 5 2 = 5) ∧
    binfile.alignPos 5 2 % 2 = 0 ∧
    binfile.writeUIntN ⟨fun _ => 0, 5⟩ 2 7 =
      binfile.writeBytes ⟨fun _ => 0, binfile.alignPos 5 2⟩ (binfile.natToBytesLE 2 7) ∧
    (binfile.natToBytesLE 2 7).length = 2 ∧
    binfile.readUIntN (fun _ => 0) 5 2 =
      (binfile.bytesLEToNat (binfile.readBytes (fun _ => 0) (binfile.alignPos 5 2) 2),
        binfile.alignPos 5 2 + 2) ∧
    binfile.writeIntN ⟨fun _ => 0, 5⟩ 2 (-3) =
      binfile.writeBytes ⟨fun _ => 0, binfile.alignPos 5 2⟩
        (binfile.natToBytesLE 2 (binfile.toTwos 2 (-3))) :=
  scalar_ops_align_cursor (fun _ => 0) 5 7 (-3) 2 (Or.inr (Or.inl rfl))

/-- Claim C2: `writeString` emits a 4-byte length field equal to
`len(s) + 1`, then the raw bytes of `s`, then advances the cursor by
`4 - len % 4` when the remainder is non-zero and by exactly `4`
otherwise; `readString` recovers `s` and lands on the writer's final
cursor, and the byte count of the whole field is a multiple of 4. -/
theorem writeString_spec_and_roundtrip (m : Nat → Nat) (p : Nat) (s : List Nat)
    (hascii : ∀ b ∈ s, b < 128) (hlen : s.length + 1 < 2 ^ 32) (hp : p % 4 = 0) :
    binfile.readBytes (binfile.writeString ⟨m, p⟩ s).mem p 4 =
      binfile.natToBytesLE 4 (s.length + 1) ∧
    binfile.readBytes (binfile.writeString ⟨m, p⟩ s).mem (p + 4) s.length = s ∧
    (binfile.writeString ⟨m, p⟩ s).pos =
      p + 4 + s.length + (if s.length % 4 = 0 then 4 else 4 - s.length % 4) ∧
    binfile.readString (binfile.writeString ⟨m, p⟩ s).mem p =
      (s, (binfile.writeString ⟨m, p⟩ s).pos) ∧
    ((binfile.writeString ⟨m, p⟩ s).pos - p) % 4 = 0 := by
  have halign : binfile.alignPos p 4 = p := binfile.alignPos_eq_self p 4 hp
  set st0 : binfile.BFState := ⟨m, p⟩ with hst0
  set st1 := binfile.writeUIntN st0 4 (s.length + 1) with hst1
  set st2 := binfile.writeBytes st1 s with hst2
  have hWfull : binfile.writeString st0 s = ⟨st2.mem, st2.pos + binfile.stringPad s.length⟩ := rfl
  have hp1 : st1.pos = p + 4 := by
    rw [hst1, binfile.writeUIntN_pos]
    show binfile.alignPos p 4 + 4 = p + 4
    rw [halign]
  have hp2 : st2.pos = p + 4 + s.length := by
    rw [hst2, binfile.writeBytes_pos, hp1]
  have hWpos : (binfile.writeString st0 s).pos = p + 4 + s.length + binfile.stringPad s.length := by
    rw [hWfull, hp2]
  have hok2 := binfile.writerOk_writeBytes s
  have hmem2 : binfile.MemEqBelow (binfile.writeString st0 s).mem st2.mem st2.pos := by
    rw [hWfull]
    exact binfile.MemEqBelow.refl _ _
  have hmem1 : binfile.MemEqBelow (binfile.writeString st0 s).mem st1.mem st1.pos :=
    @binfile.MemEqBelow.peel (fun stX => binfile.writeBytes stX s) hok2 st1 _ hmem2
  have hfield : binfile.readBytes (binfile.writeString st0 s).mem p 4 =
      binfile.natToBytesLE 4 (s.length + 1) := by
    have hagr : binfile.MemEqBelow (binfile.writeString st0 s).mem
        (binfile.writeBytes (binfile.alignSeek st0 4)
          (binfile.natToBytesLE 4 (s.length + 1))).mem
        ((binfile.alignSeek st0 4).pos + (binfile.natToBytesLE 4 (s.length + 1)).length) := by
      rw [binfile.natToBytesLE_length]
      have hps : (binfile.alignSeek st0 4).pos + 4 = st1.pos := by
        rw [hp1]
        show binfile.alignPos p 4 + 4 = p + 4
        rw [halign]
      rw [hps]
      exact hmem1
    have hres := binfile.readBytes_of_agree _ _ _ hagr
    rw [binfile.natToBytesLE_length] at hres
    have hpa : (binfile.alignSeek st0 4).pos = p := by
      show binfile.alignPos p 4 = p
      exact halign
    rw [hpa] at hres
    exact hres
  have hraw : binfile.readBytes (binfile.writeString st0 s).mem (p + 4) s.length = s := by
    have hagr : binfile.MemEqBelow (binfile.writeString st0 s).mem
        (binfile.writeBytes st1 s).mem (st1.pos + s.length) := by
      have hps : st1.pos + s.length = st2.pos := by rw [hp2, hp1]
      rw [hps]
      exact hmem2
    have hres := binfile.readBytes_of_agree s st1 _ hagr
    rw [hp1] at hres
    exact hres
  have h3 : (binfile.writeString st0 s).pos =
      p + 4 + s.length + (if s.length % 4 = 0 then 4 else 4 - s.length % 4) := by
    rw [hWpos, binfile.stringPad_eq]
  have h4 : binfile.readString (binfile.writeString st0 s).mem p =
      (s, (binfile.writeString st0 s).pos) :=
    binfile.readString_of_agree st0 (binfile.writeString st0 s).mem s hlen
      (binfile.MemEqBelow.refl _ _)
  have h5 : ((binfile.writeString st0 s).pos - p) % 4 = 0 := by
    rw [hWpos, binfile.stringPad_eq]
    by_cases hmod : s.length % 4 = 0 <;> simp [hmod] <;> omega
  exact ⟨hfield, hraw, h3, h4, h5⟩

/-- Witness for C2 at `p = 8` and the two-byte ASCII string `"hi"`. -/
theorem writeString_spec_and_roundtrip_witness :
    binfile.readBytes (binfile.writeString ⟨fun _ => 0, 8⟩ [104, 105]).mem 8 4 =
      binfile.natToBytesLE 4 ([104, 105].length + 1) ∧
    binfile.readBytes (binfile.writeString ⟨fun _ => 0, 8⟩ [104, 105]).mem (8 + 4)
      [104, 105].length = [104, 105] ∧
    (binfile.writeString ⟨fun _ => 0, 8⟩ [104, 105]).pos =
      8 + 4 + [104, 105].length +
        (if [104, 105].length % 4 = 0 then 4 else 4 - [104, 105].length % 4) ∧
    binfile.readString (binfile.writeString ⟨fun _ => 0, 8⟩ [104, 105]).mem 8 =
      ([104, 105], (binfile.writeString ⟨fun _ => 0, 8⟩ [104, 105]).pos) ∧
    ((binfile.writeString ⟨fun _ => 0, 8⟩ [104, 105]).pos - 8) % 4 = 0 :=
  writeString_spec_and_roundtrip (fun _ => 0) 8 [104, 105] (by decide) (by decide) (by decide)



namespace animation

open binfile

/-! ### Writer well-formedness for the record writers -/

theorem writerOk_writeFloatB (v : Nat) : WriterOk (fun st => writeFloatB st v) :=
  writerOk_writeUIntN 4 v

theorem writerOk_immState (v : ImmediateState) :
    WriterOk (fun st => ImmediateState.write st v) :=
  writerOk_writeIntN 1 v.toInt

theorem writerOk_blend (v : BlendMode) : WriterOk (fun st => BlendMode.write st v) :=
  writerOk_writeUIntN 4 v.toNat

theorem writerOk_position (v : Position) : WriterOk (fun st => Position.write st v) :=
  WriterOk.comp (writerOk_immState v.immediate)
    (WriterOk.comp (writerOk_writeFloatB v.x) (writerOk_writeFloatB v.y))

theorem writerOk_scale (v : Scale) : WriterOk (fun st => Scale.write st v) :=
  WriterOk.comp (writerOk_immState v.immediate)
    (WriterOk.comp (writerOk_writeFloatB v.x) (writerOk_writeFloatB v.y))

theorem writerOk_value (v : Value) : WriterOk (fun st => Value.write st v) :=
  WriterOk.comp (writerOk_immState v.immediate) (writerOk_writeFloatB v.value)

theorem writerOk_color (v : Color) : WriterOk (fun st => Color.write st v) :=
  WriterOk.comp (writerOk_immState v.immediate)
    (WriterOk.comp (writerOk_writeIntN 1 v.r)
      (WriterOk.comp (writerOk_writeIntN 1 v.g) (writerOk_writeIntN 1 v.b)))

theorem writerOk_sprite (v : Sprite) : WriterOk (fun st => Sprite.write st v) :=
  WriterOk.comp (writerOk_immState v.immediate) (writerOk_writeString v.name)

theorem writerOk_frame (f : Frame) : WriterOk (fun st => Frame.write st f) :=
  WriterOk.comp (writerOk_writeFloatB f.time)
    (WriterOk.comp (writerOk_position f.position)
      (WriterOk.comp (writerOk_scale f.scale)
        (WriterOk.comp (writerOk_value f.rotation)
          (WriterOk.comp (writerOk_value f.opacity)
            (WriterOk.comp (writerOk_sprite f.sprite) (writerOk_color f.color))))))

theorem writerOk_writeFrames (fs : List Frame) :
    WriterOk (fun st => writeFrames st fs) := by
  induction fs with
  | nil => intro st; exact ⟨le_refl _, fun _ _ => rfl⟩
  | cons f rest ih => exact WriterOk.comp (writerOk_frame f) ih

theorem writerOk_layer (l : Layer) : WriterOk (fun st => Layer.write st l) :=
  WriterOk.comp (writerOk_writeString l.name)
    (WriterOk.comp (writerOk_writeIntN 4 l.type)
      (WriterOk.comp (writerOk_blend l.blend)
        (WriterOk.comp (writerOk_writeIntN 2 l.parent)
          (WriterOk.comp (writerOk_writeIntN 2 l.id)
            (WriterOk.comp (writerOk_writeIntN 2 l.source)
              (WriterOk.comp (writerOk_writeUIntN 2 l.width)
                (WriterOk.comp (writerOk_writeUIntN 2 l.height)
                  (WriterOk.comp (writerOk_writeFloatB l.anchor_x)
                    (WriterOk.comp (writerOk_writeFloatB l.anchor_y)
                      (WriterOk.comp (writerOk_writeString l.metadata)
                        (WriterOk.comp (writerOk_writeUIntN 4 l.frames.length)
                          (writerOk_writeFrames l.frames))))))))))))

theorem writerOk_writeLayers (ls : List Layer) :
    WriterOk (fun st => writeLayers st ls) := by
  induction ls with
  | nil => intro st; exact ⟨le_refl _, fun _ _ => rfl⟩
  | cons l rest ih => exact WriterOk.comp (writerOk_layer l) ih

theorem writerOk_animation (a : Animation) : WriterOk (fun st => Animation.write st a) :=
  WriterOk.comp (writerOk_writeString a.name)
    (WriterOk.comp (writerOk_writeUIntN 2 a.width)
      (WriterOk.comp (writerOk_writeUIntN 2 a.height)
        (WriterOk.comp (writerOk_writeFloatB a.loop_offset)
          (WriterOk.comp (writerOk_writeUIntN 4 a.centered)
            (WriterOk.comp (writerOk_writeUIntN 4 a.layers.length)
              (writerOk_writeLayers a.layers))))))

theorem writerOk_source (s : Source) : WriterOk (fun st => Source.write st s) :=
  WriterOk.comp (writerOk_writeString s.path)
    (WriterOk.comp (writerOk_writeUIntN 2 s.id)
      (WriterOk.comp (writerOk_writeUIntN 2 s.width) (writerOk_writeUIntN 2 s.height)))

/-! ### Read-after-write for the scalar wrappers -/

theorem readFloatB_of_agree (st : BFState) (m' : Nat → Nat) (v : Nat) (hv : v < 2 ^ 32)
    (h : MemEqBelow m' (writeFloatB st v).mem (writeFloatB st v).pos) :
    readFloatB m' st.pos = (v, (writeFloatB st v).pos) := by
  refine readUIntN_of_agree st m' 4 v ?_ h
  have he : (2 : Nat) ^ (8 * 4) = 2 ^ 32 := by norm_num
  rw [he]
  exact hv

theorem readU16_of_agree (st : BFState) (m' : Nat → Nat) (v : Nat) (hv : v < 2 ^ 16)
    (h : MemEqBelow m' (writeUIntN st 2 v).mem (writeUIntN st 2 v).pos) :
    readUIntN m' st.pos 2 = (v, (writeUIntN st 2 v).pos) := by
  refine readUIntN_of_agree st m' 2 v ?_ h
  have he : (2 : Nat) ^ (8 * 2) = 2 ^ 16 := by norm_num
  rw [he]
  exact hv

theorem readU32_of_agree (st : BFState) (m' : Nat → Nat) (v : Nat) (hv : v < 2 ^ 32)
    (h : MemEqBelow m' (writeUIntN st 4 v).mem (writeUIntN st 4 v).pos) :
    readUIntN m' st.pos 4 = (v, (writeUIntN st 4 v).pos) := by
  refine readUIntN_of_agree st m' 4 v ?_ h
  have he : (2 : Nat) ^ (8 * 4) = 2 ^ 32 := by norm_num
  rw [he]
  exact hv

theorem readI8_of_agree (st : BFState) (m' : Nat → Nat) (v : Int) (hv : WFi8 v)
    (h : MemEqBelow m' (writeIntN st 1 v).mem (writeIntN st 1 v).pos) :
    readIntN m' st.pos 1 = (v, (writeIntN st 1 v).pos) := by
  refine readIntN_of_agree st m' 1 v (by norm_num) ?_ ?_ h
  · have he : (2 : Int) ^ (8 * 1 - 1) = 2 ^ 7 := by norm_num
    rw [he]
    exact hv.1
  · have he : (2 : Int) ^ (8 * 1 - 1) = 2 ^ 7 := by norm_num
    rw [he]
    exact hv.2

theorem readI16_of_agree (st : BFState) (m' : Nat → Nat) (v : Int) (hv : WFi16 v)
    (h : MemEqBelow m' (writeIntN st 2 v).mem (writeIntN st 2 v).pos) :
    readIntN m' st.pos 2 = (v, (writeIntN st 2 v).pos) := by
  refine readIntN_of_agree st m' 2 v (by norm_num) ?_ ?_ h
  · have he : (2 : Int) ^ (8 * 2 - 1) = 2 ^ 15 := by norm_num
    rw [he]
    exact hv.1
  · have he : (2 : Int) ^ (8 * 2 - 1) = 2 ^ 15 := by norm_num
    rw [he]
    exact hv.2

theorem readI32_of_agree (st : BFState) (m' : Nat → Nat) (v : Int) (hv : WFi32 v)
    (h : MemEqBelow m' (writeIntN st 4 v).mem (writeIntN st 4 v).pos) :
    readIntN m' st.pos 4 = (v, (writeIntN st 4 v).pos) := by
  refine readIntN_of_agree st m' 4 v (by norm_num) ?_ ?_ h
  · have he : (2 : Int) ^ (8 * 4 - 1) = 2 ^ 31 := by norm_num
    rw [he]
    exact hv.1
  · have he : (2 : Int) ^ (8 * 4 - 1) = 2 ^ 31 := by norm_num
    rw [he]
    exact hv.2

theorem ImmediateState.ofInt_toInt (v : ImmediateState) :
    ImmediateState.ofInt v.toInt = some v := by
  cases v <;> rfl

theorem BlendMode.ofValue_toNat (v : BlendMode) :
    BlendMode.ofValue v.toNat = some v := by
  cases v <;> rfl

theorem immState_read_of_agree (st : BFState) (m' : Nat → Nat) (v : ImmediateState)
    (h : MemEqBelow m' (ImmediateState.write st v).mem (ImmediateState.write st v).pos) :
    ImmediateState.read m' st.pos = some (v, (ImmediateState.write st v).pos) := by
  have hrange : WFi8 v.toInt := by cases v <;> decide
  have hr := readI8_of_agree st m' v.toInt hrange h
  show (ImmediateState.ofInt (readIntN m' st.pos 1).1).map
    (fun x => (x, (readIntN m' st.pos 1).2)) = _
  rw [hr]
  show (ImmediateState.ofInt v.toInt).map _ = _
  rw [ImmediateState.ofInt_toInt]
  rfl

theorem blend_read_of_agree (st : BFState) (m' : Nat → Nat) (v : BlendMode)
    (h : MemEqBelow m' (BlendMode.write st v).mem (BlendMode.write st v).pos) :
    BlendMode.read m' st.pos = some (v, (BlendMode.write st v).pos) := by
  have hrange : v.toNat < 2 ^ 32 := by cases v <;> decide
  have hr := readU32_of_agree st m' v.toNat hrange h
  show (BlendMode.ofValue (readUIntN m' st.pos 4).1).map
    (fun x => (x, (readUIntN m' st.pos 4).2)) = _
  rw [hr]
  show (BlendMode.ofValue v.toNat).map _ = _
  rw [BlendMode.ofValue_toNat]
  rfl

end animation

namespace animation

open binfile

theorem position_read_of_agree (st : BFState) (m' : Nat → Nat) (v : Position)
    (hWF : v.WF)
    (h : MemEqBelow m' (Position.write st v).mem (Position.write st v).pos) :
    Position.read m' st.pos = some (v, (Position.write st v).pos) := by
  have hmem2 : MemEqBelow m' (writeFloatB (ImmediateState.write st v.immediate) v.x).mem
      (writeFloatB (ImmediateState.write st v.immediate) v.x).pos :=
    @MemEqBelow.peel (fun stX => writeFloatB stX v.y) (writerOk_writeFloatB v.y) _ _ h
  have hmem1 : MemEqBelow m' (ImmediateState.write st v.immediate).mem
      (ImmediateState.write st v.immediate).pos :=
    @MemEqBelow.peel (fun stX => writeFloatB stX v.x) (writerOk_writeFloatB v.x) _ _ hmem2
  have himm := immState_read_of_agree st m' v.immediate hmem1
  have hx := readFloatB_of_agree (ImmediateState.write st v.immediate) m' v.x hWF.1 hmem2
  have hy := readFloatB_of_agree (writeFloatB (ImmediateState.write st v.immediate) v.x)
    m' v.y hWF.2 h
  simp only [Position.read, himm, hx, hy, Position.write]

theorem scale_read_of_agree (st : BFState) (m' : Nat → Nat) (v : Scale)
    (hWF : v.WF)
    (h : MemEqBelow m' (Scale.write st v).mem (Scale.write st v).pos) :
    Scale.read m' st.pos = some (v, (Scale.write st v).pos) := by
  have hmem2 : MemEqBelow m' (writeFloatB (ImmediateState.write st v.immediate) v.x).mem
      (writeFloatB (ImmediateState.write st v.immediate) v.x).pos :=
    @MemEqBelow.peel (fun stX => writeFloatB stX v.y) (writerOk_writeFloatB v.y) _ _ h
  have hmem1 : MemEqBelow m' (ImmediateState.write st v.immediate).mem
      (ImmediateState.write st v.immediate).pos :=
    @MemEqBelow.peel (fun stX => writeFloatB stX v.x) (writerOk_writeFloatB v.x) _ _ hmem2
  have himm := immState_read_of_agree st m' v.immediate hmem1
  have hx := readFloatB_of_agree (ImmediateState.write st v.immediate) m' v.x hWF.1 hmem2
  have hy := readFloatB_of_agree (writeFloatB (ImmediateState.write st v.immediate) v.x)
    m' v.y hWF.2 h
  simp only [Scale.read, himm, hx, hy, Scale.write]

theorem value_read_of_agree (st : BFState) (m' : Nat → Nat) (v : Value)
    (hWF : v.WF)
    (h : MemEqBelow m' (Value.write st v).mem (Value.write st v).pos) :
    Value.read m' st.pos = some (v, (Value.write st v).pos) := by
  have hmem1 : MemEqBelow m' (ImmediateState.write st v.immediate).mem
      (ImmediateState.write st v.immediate).pos :=
    @MemEqBelow.peel (fun stX => writeFloatB stX v.value) (writerOk_writeFloatB v.value) _ _ h
  have himm := immState_read_of_agree st m' v.immediate hmem1
  have hval := readFloatB_of_agree (ImmediateState.write st v.immediate) m' v.value hWF h
  simp only [Value.read, himm, hval, Value.write]

theorem color_read_of_agree (st : BFState) (m' : Nat → Nat) (v : Color)
    (hWF : v.WF)
    (h : MemEqBelow m' (Color.write st v).mem (Color.write st v).pos) :
    Color.read m' st.pos = some (v, (Color.write st v).pos) := by
  have hmem3 : MemEqBelow m'
      (writeIntN (writeIntN (ImmediateState.write st v.immediate) 1 v.r) 1 v.g).mem
      (writeIntN (writeIntN (ImmediateState.write st v.immediate) 1 v.r) 1 v.g).pos :=
    @MemEqBelow.peel (fun stX => writeIntN stX 1 v.b) (writerOk_writeIntN 1 v.b) _ _ h
  have hmem2 : MemEqBelow m'
      (writeIntN (ImmediateState.write st v.immediate) 1 v.r).mem
      (writeIntN (ImmediateState.write st v.immediate) 1 v.r).pos :=
    @MemEqBelow.peel (fun stX => writeIntN stX 1 v.g) (writerOk_writeIntN 1 v.g) _ _ hmem3
  have hmem1 : MemEqBelow m' (ImmediateState.write st v.immediate).mem
      (ImmediateState.write st v.immediate).pos :=
    @MemEqBelow.peel (fun stX => writeIntN stX 1 v.r) (writerOk_writeIntN 1 v.r) _ _ hmem2
  have himm := immState_read_of_agree st m' v.immediate hmem1
  have hr := readI8_of_agree (ImmediateState.write st v.immediate) m' v.r hWF.1 hmem2
  have hg := readI8_of_agree (writeIntN (ImmediateState.write st v.immediate) 1 v.r)
    m' v.g hWF.2.1 hmem3
  have hb := readI8_of_agree
    (writeIntN (writeIntN (ImmediateState.write st v.immediate) 1 v.r) 1 v.g)
    m' v.b hWF.2.2 h
  simp only [Color.read, himm, hr, hg, hb, Color.write]

theorem sprite_read_of_agree (st : BFState) (m' : Nat → Nat) (v : Sprite)
    (hWF : v.WF)
    (h : MemEqBelow m' (Sprite.write st v).mem (Sprite.write st v).pos) :
    Sprite.read m' st.pos = some (v, (Sprite.write st v).pos) := by
  have hmem1 : MemEqBelow m' (ImmediateState.write st v.immediate).mem
      (ImmediateState.write st v.immediate).pos :=
    @MemEqBelow.peel (fun stX => writeString stX v.name) (writerOk_writeString v.name) _ _ h
  have himm := immState_read_of_agree st m' v.immediate hmem1
  have hname := readString_of_agree (ImmediateState.write st v.immediate) m' v.name hWF.1 h
  simp only [Sprite.read, himm, hname, Sprite.write]

theorem frame_read_of_agree (st : BFState) (m' : Nat → Nat) (f : Frame)
    (hWF : f.WF)
    (h : MemEqBelow m' (Frame.write st f).mem (Frame.write st f).pos) :
    Frame.read m' st.pos = some (f, (Frame.write st f).pos) := by
  obtain ⟨hT, hP, hS, hR, hO, hSp, hC⟩ := hWF
  have hmem6 : MemEqBelow m'
      (Sprite.write (Value.write (Value.write (Scale.write (Position.write
        (writeFloatB st f.time) f.position) f.scale) f.rotation) f.opacity) f.sprite).mem
      (Sprite.write (Value.write (Value.write (Scale.write (Position.write
        (writeFloatB st f.time) f.position) f.scale) f.rotation) f.opacity) f.sprite).pos :=
    @MemEqBelow.peel (fun stX => Color.write stX f.color) (writerOk_color f.color) _ _ h
  have hmem5 : MemEqBelow m'
      (Value.write (Value.write (Scale.write (Position.write
        (writeFloatB st f.time) f.position) f.scale) f.rotation) f.opacity).mem
      (Value.write (Value.write (Scale.write (Position.write
        (writeFloatB st f.time) f.position) f.scale) f.rotation) f.opacity).pos :=
    @MemEqBelow.peel (fun stX => Sprite.write stX f.sprite) (writerOk_sprite f.sprite) _ _ hmem6
  have hmem4 : MemEqBelow m'
      (Value.write (Scale.write (Position.write
        (writeFloatB st f.time) f.position) f.scale) f.rotation).mem
      (Value.write (Scale.write (Position.write
        (writeFloatB st f.time) f.position) f.scale) f.rotation).pos :=
    @MemEqBelow.peel (fun stX => Value.write stX f.opacity) (writerOk_value f.opacity) _ _ hmem5
  have hmem3 : MemEqBelow m'
      (Scale.write (Position.write (writeFloatB st f.time) f.position) f.scale).mem
      (Scale.write (Position.write (writeFloatB st f.time) f.position) f.scale).pos :=
    @MemEqBelow.peel (fun stX => Value.write stX f.rotation) (writerOk_value f.rotation) _ _ hmem4
  have hmem2 : MemEqBelow m'
      (Position.write (writeFloatB st f.time) f.position).mem
      (Position.write (writeFloatB st f.time) f.position).pos :=
    @MemEqBelow.peel (fun stX => Scale.write stX f.scale) (writerOk_scale f.scale) _ _ hmem3
  have hmem1 : MemEqBelow m' (writeFloatB st f.time).mem (writeFloatB st f.time).pos :=
    @MemEqBelow.peel (fun stX => Position.write stX f.position)
      (writerOk_position f.position) _ _ hmem2
  have htime := readFloatB_of_agree st m' f.time hT hmem1
  have hpos := position_read_of_agree (writeFloatB st f.time) m' f.position hP hmem2
  have hsc := scale_read_of_agree (Position.write (writeFloatB st f.time) f.position)
    m' f.scale hS hmem3
  have hrot := value_read_of_agree
    (Scale.write (Position.write (writeFloatB st f.time) f.position) f.scale)
    m' f.rotation hR hmem4
  have hop := value_read_of_agree
    (Value.write (Scale.write (Position.write (writeFloatB st f.time) f.position) f.scale)
      f.rotation) m' f.opacity hO hmem5
  have hspr := sprite_read_of_agree
    (Value.write (Value.write (Scale.write (Position.write (writeFloatB st f.time)
      f.position) f.scale) f.rotation) f.opacity) m' f.sprite hSp hmem6
  have hcol := color_read_of_agree
    (Sprite.write (Value.write (Value.write (Scale.write (Position.write
      (writeFloatB st f.time) f.position) f.scale) f.rotation) f.opacity) f.sprite)
    m' f.color hC h
  simp only [Frame.read, htime, hpos, hsc, hrot, hop, hspr, hcol, Frame.write]

end animation

namespace animation

open binfile

theorem readFrames_of_agree (fs : List Frame) : ∀ (st : BFState) (m' : Nat → Nat),
    (∀ f ∈ fs, f.WF) →
    MemEqBelow m' (writeFrames st fs).mem (writeFrames st fs).pos →
    readFrames m' st.pos fs.length = some (fs, (writeFrames st fs).pos) := by
  induction fs with
  | nil => intro st m' _ _; rfl
  | cons f rest ih =>
    intro st m' hwf h
    have hW : writeFrames st (f :: rest) = writeFrames (Frame.write st f) rest := rfl
    rw [hW] at h ⊢
    have hmem1 : MemEqBelow m' (Frame.write st f).mem (Frame.write st f).pos :=
      @MemEqBelow.peel (fun stX => writeFrames stX rest) (writerOk_writeFrames rest) _ _ h
    have hf := frame_read_of_agree st m' f (hwf f (by simp)) hmem1
    have hrest := ih (Frame.write st f) m' (fun g hg => hwf g (by simp [hg])) h
    show readFrames m' st.pos (rest.length + 1) =
      some (f :: rest, (writeFrames (Frame.write st f) rest).pos)
    simp only [readFrames, hf, hrest]

theorem layer_read_of_agree (st : BFState) (m' : Nat → Nat) (l : Layer) (hWF : l.WF)
    (h : MemEqBelow m' (Layer.write st l).mem (Layer.write st l).pos) :
    Layer.read m' st.pos = some (l, (Layer.write st l).pos) := by
  obtain ⟨h1, h2, h3, h4, h5, h6, h7, h8, h9, h10, h11, h12⟩ := hWF
  set s1 := writeString st l.name with hs1
  set s2 := writeIntN s1 4 l.type with hs2
  set s3 := BlendMode.write s2 l.blend with hs3
  set s4 := writeIntN s3 2 l.parent with hs4
  set s5 := writeIntN s4 2 l.id with hs5
  set s6 := writeIntN s5 2 l.source with hs6
  set s7 := writeUIntN s6 2 l.width with hs7
  set s8 := writeUIntN s7 2 l.height with hs8
  set s9 := writeFloatB s8 l.anchor_x with hs9
  set s10 := writeFloatB s9 l.anchor_y with hs10
  set s11 := writeString s10 l.metadata with hs11
  set s12 := writeUIntN s11 4 l.frames.length with hs12
  have hw : Layer.write st l = writeFrames s12 l.frames := rfl
  rw [hw] at h
  have hm12 : MemEqBelow m' s12.mem s12.pos :=
    @MemEqBelow.peel (fun stX => writeFrames stX l.frames)
      (writerOk_writeFrames l.frames) _ _ h
  have hm11 : MemEqBelow m' s11.mem s11.pos :=
    @MemEqBelow.peel (fun stX => writeUIntN stX 4 l.frames.length)
      (writerOk_writeUIntN 4 l.frames.length) _ _ hm12
  have hm10 : MemEqBelow m' s10.mem s10.pos :=
    @MemEqBelow.peel (fun stX => writeString stX l.metadata)
      (writerOk_writeString l.metadata) _ _ hm11
  have hm9 : MemEqBelow m' s9.mem s9.pos :=
    @MemEqBelow.peel (fun stX => writeFloatB stX l.anchor_y)
      (writerOk_writeFloatB l.anchor_y) _ _ hm10
  have hm8 : MemEqBelow m' s8.mem s8.pos :=
    @MemEqBelow.peel (fun stX => writeFloatB stX l.anchor_x)
      (writerOk_writeFloatB l.anchor_x) _ _ hm9
  have hm7 : MemEqBelow m' s7.mem s7.pos :=
    @MemEqBelow.peel (fun stX => writeUIntN stX 2 l.height)
      (writerOk_writeUIntN 2 l.height) _ _ hm8
  have hm6 : MemEqBelow m' s6.mem s6.pos :=
    @MemEqBelow.peel (fun stX => writeUIntN stX 2 l.width)
      (writerOk_writeUIntN 2 l.width) _ _ hm7
  have hm5 : MemEqBelow m' s5.mem s5.pos :=
    @MemEqBelow.peel (fun stX => writeIntN stX 2 l.source)
      (writerOk_writeIntN 2 l.source) _ _ hm6
  have hm4 : MemEqBelow m' s4.mem s4.pos :=
    @MemEqBelow.peel (fun stX => writeIntN stX 2 l.id)
      (writerOk_writeIntN 2 l.id) _ _ hm5
  have hm3 : MemEqBelow m' s3.mem s3.pos :=
    @MemEqBelow.peel (fun stX => writeIntN stX 2 l.parent)
      (writerOk_writeIntN 2 l.parent) _ _ hm4
  have hm2 : MemEqBelow m' s2.mem s2.pos :=
    @MemEqBelow.peel (fun stX => BlendMode.write stX l.blend)
      (writerOk_blend l.blend) _ _ hm3
  have hm1 : MemEqBelow m' s1.mem s1.pos :=
    @MemEqBelow.peel (fun stX => writeIntN stX 4 l.type)
      (writerOk_writeIntN 4 l.type) _ _ hm2
  have r1 := readString_of_agree st m' l.name h1.1 hm1
  have r2 := readI32_of_agree s1 m' l.type h2 hm2
  have r3 := blend_read_of_agree s2 m' l.blend hm3
  have r4 := readI16_of_agree s3 m' l.parent h3 hm4
  have r5 := readI16_of_agree s4 m' l.id h4 hm5
  have r6 := readI16_of_agree s5 m' l.source h5 hm6
  have r7 := readU16_of_agree s6 m' l.width h6 hm7
  have r8 := readU16_of_agree s7 m' l.height h7 hm8
  have r9 := readFloatB_of_agree s8 m' l.anchor_x h8 hm9
  have r10 := readFloatB_of_agree s9 m' l.anchor_y h9 hm10
  have r11 := readString_of_agree s10 m' l.metadata h10.1 hm11
  have r12 := readU32_of_agree s11 m' l.frames.length h11 hm12
  have r13 := readFrames_of_agree l.frames s12 m' h12 h
  simp only [Layer.read, hw, ← hs1, ← hs2, ← hs3, ← hs4, ← hs5, ← hs6, ← hs7,
    ← hs8, ← hs9, ← hs10, ← hs11, ← hs12, r1, r2, r3, r4, r5, r6, r7, r8, r9,
    r10, r11, r12, r13]

theorem readLayers_of_agree (ls : List Layer) : ∀ (st : BFState) (m' : Nat → Nat),
    (∀ l ∈ ls, l.WF) →
    MemEqBelow m' (writeLayers st ls).mem (writeLayers st ls).pos →
    readLayers m' st.pos ls.length = some (ls, (writeLayers st ls).pos) := by
  induction ls with
  | nil => intro st m' _ _; rfl
  | cons l rest ih =>
    intro st m' hwf h
    have hW : writeLayers st (l :: rest) = writeLayers (Layer.write st l) rest := rfl
    rw [hW] at h ⊢
    have hmem1 : MemEqBelow m' (Layer.write st l).mem (Layer.write st l).pos :=
      @MemEqBelow.peel (fun stX => writeLayers stX rest) (writerOk_writeLayers rest) _ _ h
    have hl := layer_read_of_agree st m' l (hwf l (by simp)) hmem1
    have hrest := ih (Layer.write st l) m' (fun g hg => hwf g (by simp [hg])) h
    show readLayers m' st.pos (rest.length + 1) =
      some (l :: rest, (writeLayers (Layer.write st l) rest).pos)
    simp only [readLayers, hl, hrest]

theorem animation_read_of_agree (st : BFState) (m' : Nat → Nat) (a : Animation)
    (hWF : a.WF)
    (h : MemEqBelow m' (Animation.write st a).mem (Animation.write st a).pos) :
    Animation.read m' st.pos = some (a, (Animation.write st a).pos) := by
  obtain ⟨h1, h2, h3, h4, h5, h6, h7⟩ := hWF
  set s1 := writeString st a.name with hs1
  set s2 := writeUIntN s1 2 a.width with hs2
  set s3 := writeUIntN s2 2 a.height with hs3
  set s4 := writeFloatB s3 a.loop_offset with hs4
  set s5 := writeUIntN s4 4 a.centered with hs5
  set s6 := writeUIntN s5 4 a.layers.length with hs6
  have hw : Animation.write st a = writeLayers s6 a.layers := rfl
  rw [hw] at h
  have hm6 : MemEqBelow m' s6.mem s6.pos :=
    @MemEqBelow.peel (fun stX => writeLayers stX a.layers)
      (writerOk_writeLayers a.layers) _ _ h
  have hm5 : MemEqBelow m' s5.mem s5.pos :=
    @MemEqBelow.peel (fun stX => writeUIntN stX 4 a.layers.length)
      (writerOk_writeUIntN 4 a.layers.length) _ _ hm6
  have hm4 : MemEqBelow m' s4.mem s4.pos :=
    @MemEqBelow.peel (fun stX => writeUIntN stX 4 a.centered)
      (writerOk_writeUIntN 4 a.centered) _ _ hm5
  have hm3 : MemEqBelow m' s3.mem s3.pos :=
    @MemEqBelow.peel (fun stX => writeFloatB stX a.loop_offset)
      (writerOk_writeFloatB a.loop_offset) _ _ hm4
  have hm2 : MemEqBelow m' s2.mem s2.pos :=
    @MemEqBelow.peel (fun stX => writeUIntN stX 2 a.height)
      (writerOk_writeUIntN 2 a.height) _ _ hm3
  have hm1 : MemEqBelow m' s1.mem s1.pos :=
    @MemEqBelow.peel (fun stX => writeUIntN stX 2 a.width)
      (writerOk_writeUIntN 2 a.width) _ _ hm2
  have r1 := readString_of_agree st m' a.name h1.1 hm1
  have r2 := readU16_of_agree s1 m' a.width h2 hm2
  have r3 := readU16_of_agree s2 m' a.height h3 hm3
  have r4 := readFloatB_of_agree s3 m' a.loop_offset h4 hm4
  have r5 := readU32_of_agree s4 m' a.centered h5 hm5
  have r6 := readU32_of_agree s5 m' a.layers.length h6 hm6
  have r7 := readLayers_of_agree a.layers s6 m' h7 h
  simp only [Animation.read, hw, ← hs1, ← hs2, ← hs3, ← hs4, ← hs5, ← hs6,
    r1, r2, r3, r4, r5, r6, r7]

theorem source_read_of_agree (st : BFState) (m' : Nat → Nat) (s : Source)
    (hWF : s.WF)
    (h : MemEqBelow m' (Source.write st s).mem (Source.write st s).pos) :
    Source.read m' st.pos = (s, (Source.write st s).pos) := by
  obtain ⟨h1, h2, h3, h4⟩ := hWF
  set s1 := writeString st s.path with hs1
  set s2 := writeUIntN s1 2 s.id with hs2
  set s3 := writeUIntN s2 2 s.width with hs3
  have hw : Source.write st s = writeUIntN s3 2 s.height := rfl
  rw [hw] at h
  have hm3 : MemEqBelow m' s3.mem s3.pos :=
    @MemEqBelow.peel (fun stX => writeUIntN stX 2 s.height)
      (writerOk_writeUIntN 2 s.height) _ _ h
  have hm2 : MemEqBelow m' s2.mem s2.pos :=
    @MemEqBelow.peel (fun stX => writeUIntN stX 2 s.width)
      (writerOk_writeUIntN 2 s.width) _ _ hm3
  have hm1 : MemEqBelow m' s1.mem s1.pos :=
    @MemEqBelow.peel (fun stX => writeUIntN stX 2 s.id)
      (writerOk_writeUIntN 2 s.id) _ _ hm2
  have r1 := readString_of_agree st m' s.path h1.1 hm1
  have r2 := readU16_of_agree s1 m' s.id h2 hm2
  have r3 := readU16_of_agree s2 m' s.width h3 hm3
  have r4 := readU16_of_agree s3 m' s.height h4 h
  simp only [Source.read, hw, ← hs1, ← hs2, ← hs3, r1, r2, r3, r4]

end animation

/-- Claim C4: writing any well-formed `Source`, `Animation` (with its
layers and frames) or `Frame` record with the codec at cursor position
`p` and then reading from the same position `p` yields a record
field-for-field equal to the original, and the read ends at exactly the
same cursor position as the write did. -/
theorem record_write_read_roundtrip (m : Nat → Nat) (p : Nat) (s : animation.Source)
    (a : animation.Animation) (f : animation.Frame)
    (hs : s.WF) (ha : a.WF) (hf : f.WF) :
    animation.Source.read (animation.Source.write ⟨m, p⟩ s).mem p =
      (s, (animation.Source.write ⟨m, p⟩ s).pos) ∧
    animation.Animation.read (animation.Animation.write ⟨m, p⟩ a).mem p =
      some (a, (animation.Animation.write ⟨m, p⟩ a).pos) ∧
    animation.Frame.read (animation.Frame.write ⟨m, p⟩ f).mem p =
      some (f, (animation.Frame.write ⟨m, p⟩ f).pos) :=
  ⟨animation.source_read_of_agree ⟨m, p⟩ _ s hs (binfile.MemEqBelow.refl _ _),
   animation.animation_read_of_agree ⟨m, p⟩ _ a ha (binfile.MemEqBelow.refl _ _),
   animation.frame_read_of_agree ⟨m, p⟩ _ f hf (binfile.MemEqBelow.refl _ _)⟩

/-- Witness for C4: a one-layer, one-frame animation graph written at
cursor 3 of a zeroed store. -/
theorem record_write_read_roundtrip_witness :
    animation.Source.read
      (animation.Source.write ⟨fun _ => 0, 3⟩ (⟨[88], 0, 1, 2⟩ : animation.Source)).mem 3 =
      ((⟨[88], 0, 1, 2⟩ : animation.Source),
        (animation.Source.write ⟨fun _ => 0, 3⟩ (⟨[88], 0, 1, 2⟩ : animation.Source)).pos) ∧
    animation.Animation.read
      (animation.Animation.write ⟨fun _ => 0, 3⟩
        (⟨[65], 12, 13, 14, 1,
          [⟨[76], 1, .NORMAL, -1, 0, 0, 8, 9, 10, 11, [],
            [⟨1, ⟨.SET, 2, 3⟩, ⟨.SET, 4, 5⟩, ⟨.SET, 6⟩, ⟨.SET, 7⟩, ⟨.SET, [97]⟩,
              ⟨.UNSET, -1, -1, -1⟩⟩]⟩]⟩ : animation.Animation)).mem 3 =
      some ((⟨[65], 12, 13, 14, 1,
          [⟨[76], 1, .NORMAL, -1, 0, 0, 8, 9, 10, 11, [],
            [⟨1, ⟨.SET, 2, 3⟩, ⟨.SET, 4, 5⟩, ⟨.SET, 6⟩, ⟨.SET, 7⟩, ⟨.SET, [97]⟩,
              ⟨.UNSET, -1, -1, -1⟩⟩]⟩]⟩ : animation.Animation),
        (animation.Animation.write ⟨fun _ => 0, 3⟩
          (⟨[65], 12, 13, 14, 1,
            [⟨[76], 1, .NORMAL, -1, 0, 0, 8, 9, 10, 11, [],
              [⟨1, ⟨.SET, 2, 3⟩, ⟨.SET, 4, 5⟩, ⟨.SET, 6⟩, ⟨.SET, 7⟩, ⟨.SET, [97]⟩,
                ⟨.UNSET, -1, -1, -1⟩⟩]⟩]⟩ : animation.Animation)).pos) ∧
    animation.Frame.read
      (animation.Frame.write ⟨fun _ => 0, 3⟩
        (⟨1, ⟨.SET, 2, 3⟩, ⟨.SET, 4, 5⟩, ⟨.SET, 6⟩, ⟨.SET, 7⟩, ⟨.SET, [97]⟩,
          ⟨.UNSET, -1, -1, -1⟩⟩ : animation.Frame)).mem 3 =
      some ((⟨1, ⟨.SET, 2, 3⟩, ⟨.SET, 4, 5⟩, ⟨.SET, 6⟩, ⟨.SET, 7⟩, ⟨.SET, [97]⟩,
          ⟨.UNSET, -1, -1, -1⟩⟩ : animation.Frame),
        (animation.Frame.write ⟨fun _ => 0, 3⟩
          (⟨1, ⟨.SET, 2, 3⟩, ⟨.SET, 4, 5⟩, ⟨.SET, 6⟩, ⟨.SET, 7⟩, ⟨.SET, [97]⟩,
            ⟨.UNSET, -1, -1, -1⟩⟩ : animation.Frame)).pos) :=
  record_write_read_roundtrip (fun _ => 0) 3
    (⟨[88], 0, 1, 2⟩ : animation.Source)
    (⟨[65], 12, 13, 14, 1,
      [⟨[76], 1, .NORMAL, -1, 0, 0, 8, 9, 10, 11, [],
        [⟨1, ⟨.SET, 2, 3⟩, ⟨.SET, 4, 5⟩, ⟨.SET, 6⟩, ⟨.SET, 7⟩, ⟨.SET, [97]⟩,
          ⟨.UNSET, -1, -1, -1⟩⟩]⟩]⟩ : animation.Animation)
    (⟨1, ⟨.SET, 2, 3⟩, ⟨.SET, 4, 5⟩, ⟨.SET, 6⟩, ⟨.SET, 7⟩, ⟨.SET, [97]⟩,
      ⟨.UNSET, -1, -1, -1⟩⟩ : animation.Frame)
    (by decide) (by decide) (by decide)

namespace processor

theorem rowAny_iff (w : Nat) (alpha : Nat → Nat → Nat) (i : Nat) :
    rowAny w alpha i = true ↔ ∃ j, j < w ∧ 0 < alpha i j := by
  simp [rowAny, List.any_eq_true, List.mem_range]

theorem colAny_iff (h : Nat) (alpha : Nat → Nat → Nat) (j : Nat) :
    colAny h alpha j = true ↔ ∃ i, i < h ∧ 0 < alpha i j := by
  simp [colAny, List.any_eq_true, List.mem_range]

theorem sorted_head_le (t : Nat) (rs : List Nat)
    (hp : (t :: rs).Pairwise (fun a b => a < b)) :
    ∀ i ∈ t :: rs, t ≤ i := by
  intro i hi
  rcases List.mem_cons.mp hi with rfl | hi'
  · exact le_refl i
  · exact le_of_lt ((List.pairwise_cons.mp hp).1 i hi')

theorem sorted_le_getLastD (as : List Nat) : ∀ a : Nat,
    (a :: as).Pairwise (fun x y => x < y) →
    ∀ i ∈ a :: as, i ≤ (a :: as).getLastD 0 := by
  induction as with
  | nil =>
    intro a _ i hi
    have : i = a := by simpa using hi
    subst this
    exact le_refl _
  | cons b bs ih =>
    intro a hp i hi
    have hgl : (a :: b :: bs).getLastD 0 = (b :: bs).getLastD 0 := by
      rw [List.getLastD_cons 0 a (b :: bs), List.getLastD_cons a b bs,
        List.getLastD_cons 0 b bs]
    rw [hgl]
    have hp2 : (b :: bs).Pairwise (fun x y => x < y) := (List.pairwise_cons.mp hp).2
    rcases List.mem_cons.mp hi with rfl | hi'
    · have hmem : (b :: bs).getLastD 0 ∈ b :: bs := by
        rw [List.getLastD_cons 0 b bs]
        exact List.getLastD_mem_cons bs b
      exact le_of_lt ((List.pairwise_cons.mp hp).1 _ hmem)
    · exact ih b hp2 i hi'

end processor

/-- Claim C5: on an `h × w` RGBA alpha grid with at least one pixel of
alpha above zero, `find_bbox` returns a box with exclusive right/bottom
bounds, width and height at least 1, containing every alpha-positive
pixel and touching all four edges (shrinking any edge would drop a
pixel); on a fully transparent grid it fails (returns `none`, the
`ProcessingError` of the source). -/
theorem find_bbox_tight_spec (h w : Nat) (alpha : Nat → Nat → Nat) :
    ((∃ i, i < h ∧ ∃ j, j < w ∧ 0 < alpha i j) →
      ∃ bb : processor.BoundingBox, processor.find_bbox h w alpha = some bb ∧
        1 ≤ bb.width ∧ 1 ≤ bb.height ∧
        (∀ i j, i < h → j < w → 0 < alpha i j →
          bb.left ≤ j ∧ j < bb.right ∧ bb.top ≤ i ∧ i < bb.bottom) ∧
        (∃ j, j < w ∧ 0 < alpha bb.top j) ∧
        (∃ j, j < w ∧ 0 < alpha (bb.bottom - 1) j) ∧
        (∃ i, i < h ∧ 0 < alpha i bb.left) ∧
        (∃ i, i < h ∧ 0 < alpha i (bb.right - 1))) ∧
    ((∀ i j, i < h → j < w → alpha i j = 0) →
      processor.find_bbox h w alpha = none) := by
  constructor
  · rintro ⟨i0, hi0, j0, hj0, hnz⟩
    have hrowmem : ∀ i, i ∈ (List.range h).filter (processor.rowAny w alpha) ↔
        i < h ∧ processor.rowAny w alpha i = true := by
      intro i
      rw [List.mem_filter, List.mem_range]
    have hcolmem : ∀ j, j ∈ (List.range w).filter (processor.colAny h alpha) ↔
        j < w ∧ processor.colAny h alpha j = true := by
      intro j
      rw [List.mem_filter, List.mem_range]
    have hi0row : i0 ∈ (List.range h).filter (processor.rowAny w alpha) :=
      (hrowmem i0).mpr ⟨hi0, (processor.rowAny_iff w alpha i0).mpr ⟨j0, hj0, hnz⟩⟩
    have hj0col : j0 ∈ (List.range w).filter (processor.colAny h alpha) :=
      (hcolmem j0).mpr ⟨hj0, (processor.colAny_iff h alpha j0).mpr ⟨i0, hi0, hnz⟩⟩
    cases hrow : (List.range h).filter (processor.rowAny w alpha) with
    | nil =>
      rw [hrow] at hi0row
      simp at hi0row
    | cons t rs =>
    cases hcol : (List.range w).filter (processor.colAny h alpha) with
    | nil =>
      rw [hcol] at hj0col
      simp at hj0col
    | cons l cs =>
    have hsortrow : (t :: rs).Pairwise (fun a b => a < b) := by
      rw [← hrow]
      exact (List.pairwise_lt_range h).filter _
    have hsortcol : (l :: cs).Pairwise (fun a b => a < b) := by
      rw [← hcol]
      exact (List.pairwise_lt_range w).filter _
    have hbb : processor.find_bbox h w alpha =
        some ⟨l, t, (l :: cs).getLastD 0 + 1, (t :: rs).getLastD 0 + 1⟩ := by
      simp only [processor.find_bbox]
      rw [hrow, hcol]
    refine ⟨⟨l, t, (l :: cs).getLastD 0 + 1, (t :: rs).getLastD 0 + 1⟩, hbb, ?_, ?_, ?_, ?_, ?_, ?_, ?_⟩
    · have hmeml : l ∈ l :: cs := List.mem_cons_self l cs
      have := processor.sorted_le_getLastD cs l hsortcol l hmeml
      show 1 ≤ (l :: cs).getLastD 0 + 1 - l
      omega
    · have hmemt : t ∈ t :: rs := List.mem_cons_self t rs
      have := processor.sorted_le_getLastD rs t hsortrow t hmemt
      show 1 ≤ (t :: rs).getLastD 0 + 1 - t
      omega
    · intro i j hih hjw hnz2
      have hirow : i ∈ t :: rs := by
        rw [← hrow]
        exact (hrowmem i).mpr ⟨hih, (processor.rowAny_iff w alpha i).mpr ⟨j, hjw, hnz2⟩⟩
      have hjcol : j ∈ l :: cs := by
        rw [← hcol]
        exact (hcolmem j).mpr ⟨hjw, (processor.colAny_iff h alpha j).mpr ⟨i, hih, hnz2⟩⟩
      have h1 := processor.sorted_head_le l cs hsortcol j hjcol
      have h2 := processor.sorted_le_getLastD cs l hsortcol j hjcol
      have h3 := processor.sorted_head_le t rs hsortrow i hirow
      have h4 := processor.sorted_le_getLastD rs t hsortrow i hirow
      show l ≤ j ∧ j < (l :: cs).getLastD 0 + 1 ∧ t ≤ i ∧ i < (t :: rs).getLastD 0 + 1
      exact ⟨h1, by omega, h3, by omega⟩
    · have hmemt : t ∈ (List.range h).filter (processor.rowAny w alpha) := by
        rw [hrow]
        exact List.mem_cons_self t rs
      exact (processor.rowAny_iff w alpha t).mp ((hrowmem t).mp hmemt).2
    · have hmemb : (t :: rs).getLastD 0 ∈ (List.range h).filter (processor.rowAny w alpha) := by
        rw [hrow, List.getLastD_cons 0 t rs]
        exact List.getLastD_mem_cons rs t
      have := (processor.rowAny_iff w alpha ((t :: rs).getLastD 0)).mp ((hrowmem _).mp hmemb).2
      simpa using this
    · have hmeml : l ∈ (List.range w).filter (processor.colAny h alpha) := by
        rw [hcol]
        exact List.mem_cons_self l cs
      exact (processor.colAny_iff h alpha l).mp ((hcolmem l).mp hmeml).2
    · have hmemr : (l :: cs).getLastD 0 ∈ (List.range w).filter (processor.colAny h alpha) := by
        rw [hcol, List.getLastD_cons 0 l cs]
        exact List.getLastD_mem_cons cs l
      have := (processor.colAny_iff h alpha ((l :: cs).getLastD 0)).mp ((hcolmem _).mp hmemr).2
      simpa using this
  · intro hzero
    have hrnil : (List.range h).filter (processor.rowAny w alpha) = [] := by
      rw [List.filter_eq_nil_iff]
      intro i hi
      rw [List.mem_range] at hi
      intro hany
      obtain ⟨j, hj, hnz⟩ := (processor.rowAny_iff w alpha i).mp hany
      have := hzero i j hi hj
      omega
    have hcnil : (List.range w).filter (processor.colAny h alpha) = [] := by
      rw [List.filter_eq_nil_iff]
      intro j hj
      rw [List.mem_range] at hj
      intro hany
      obtain ⟨i, hi, hnz⟩ := (processor.colAny_iff h alpha j).mp hany
      have := hzero i j hi hj
      omega
    simp only [processor.find_bbox]
    rw [hrnil, hcnil]

/-- Witness for C5 on a 2 by 2 grid whose only opaque pixel is at row 1,
column 0. -/
theorem find_bbox_tight_spec_witness :
    ∃ bb : processor.BoundingBox,
      processor.find_bbox 2 2 (fun i j => if i = 1 ∧ j = 0 then 5 else 0) = some bb ∧
      1 ≤ bb.width ∧ 1 ≤ bb.height ∧
      (∀ i j, i < 2 → j < 2 → 0 < (fun i j => if i = 1 ∧ j = 0 then 5 else 0) i j →
        bb.left ≤ j ∧ j < bb.right ∧ bb.top ≤ i ∧ i < bb.bottom) ∧
      (∃ j, j < 2 ∧ 0 < (fun i j => if i = 1 ∧ j = 0 then 5 else 0) bb.top j) ∧
      (∃ j, j < 2 ∧ 0 < (fun i j => if i = 1 ∧ j = 0 then 5 else 0) (bb.bottom - 1) j) ∧
      (∃ i, i < 2 ∧ 0 < (fun i j => if i = 1 ∧ j = 0 then 5 else 0) i bb.left) ∧
      (∃ i, i < 2 ∧ 0 < (fun i j => if i = 1 ∧ j = 0 then 5 else 0) i (bb.right - 1)) :=
  (find_bbox_tight_spec 2 2 (fun i j => if i = 1 ∧ j = 0 then 5 else 0)).1
    ⟨1, by decide, 0, by decide, by decide⟩

namespace compiler

theorem ceilSqrt_sq_ge (n : Nat) : n ≤ ceilSqrt n * ceilSqrt n := by
  unfold ceilSqrt
  split
  case isTrue hsq => omega
  case isFalse hsq =>
    have h := Nat.lt_succ_sqrt n
    simp only [Nat.succ_eq_add_one] at h
    omega

theorem ceilSqrt_pred_sq_lt (n : Nat) (hn : 1 ≤ n) :
    (ceilSqrt n - 1) * (ceilSqrt n - 1) < n := by
  unfold ceilSqrt
  split
  case isTrue hsq =>
    have hs1 : 1 ≤ Nat.sqrt n := by
      by_contra hcon
      have : Nat.sqrt n = 0 := by omega
      rw [this] at hsq
      omega
    have := Nat.mul_self_lt_mul_self (show Nat.sqrt n - 1 < Nat.sqrt n by omega)
    omega
  case isFalse hsq =>
    have hle := Nat.sqrt_le n
    simp only [Nat.add_sub_cancel]
    omega

theorem ceilSqrt_pos (n : Nat) (hn : 1 ≤ n) : 0 < ceilSqrt n := by
  have h1 := ceilSqrt_sq_ge n
  by_contra hcon
  have h0 : ceilSqrt n = 0 := by omega
  rw [h0] at h1
  simp at h1
  omega

theorem le_cols_mul_rows (n : Nat) (hn : 1 ≤ n) :
    n ≤ ceilSqrt n * ((n + ceilSqrt n - 1) / ceilSqrt n) := by
  have hc := ceilSqrt_pos n hn
  have hdm := Nat.div_add_mod (n + ceilSqrt n - 1) (ceilSqrt n)
  have hmod : (n + ceilSqrt n - 1) % ceilSqrt n < ceilSqrt n := Nat.mod_lt _ hc
  omega

end compiler

/-- Claim C9: for `n ≥ 1` frames the packer uses `cols = ceil(sqrt n)`
(witnessed by the two inequalities characterising the ceiling of the
square root), `rows = ceil(n / cols)`, places frame `i` at pixel
`((i % cols) * w, (i / cols) * h)` and produces an atlas of
`cols * w` by `rows * h` pixels; packing 5 frames of 64 by 64 yields
`cols = 3`, `rows = 2`, a 192 by 128 atlas with frame 4 at (64, 64). -/
theorem spritesheet_layout (frames : List compiler.PImg) (f0 : compiler.PImg)
    (rest : List compiler.PImg) (hf : frames = f0 :: rest) :
    (∃ sd : compiler.SpritesheetData,
      compiler.create_spritesheet frames = Except.ok sd ∧
      sd.frame_size = (f0.w, f0.h) ∧
      sd.sheetW = compiler.ceilSqrt frames.length * f0.w ∧
      sd.sheetH = ((frames.length + compiler.ceilSqrt frames.length - 1) /
        compiler.ceilSqrt frames.length) * f0.h ∧
      sd.frame_positions.length = frames.length ∧
      (∀ i, i < frames.length →
        sd.frame_positions[i]? =
          some ((i % compiler.ceilSqrt frames.length) * f0.w,
            (i / compiler.ceilSqrt frames.length) * f0.h))) ∧
    frames.length ≤ compiler.ceilSqrt frames.length * compiler.ceilSqrt frames.length ∧
    (compiler.ceilSqrt frames.length - 1) * (compiler.ceilSqrt frames.length - 1) <
      frames.length ∧
    compiler.calculate_spritesheet_size 5 (64, 64) = (192, 128, 3, 2) ∧
    (compiler.create_spritesheet (List.replicate 5 (⟨64, 64⟩ : compiler.PImg))).map
      (fun sd => sd.frame_positions[4]?) = Except.ok (some (64, 64)) := by
  subst hf
  refine ⟨⟨⟨compiler.ceilSqrt (f0 :: rest).length * f0.w,
      ((f0 :: rest).length + compiler.ceilSqrt (f0 :: rest).length - 1) /
        compiler.ceilSqrt (f0 :: rest).length * f0.h,
      (List.range (f0 :: rest).length).map
        (fun i => ((i % compiler.ceilSqrt (f0 :: rest).length) * f0.w,
          (i / compiler.ceilSqrt (f0 :: rest).length) * f0.h)),
      (f0.w, f0.h)⟩, rfl, rfl, rfl, rfl, by simp, ?_⟩,
    compiler.ceilSqrt_sq_ge _, compiler.ceilSqrt_pred_sq_lt _ (by simp),
    ?_, ?_⟩
  · intro i hi
    rw [List.getElem?_map, List.getElem?_range hi]
    rfl
  · have hc : compiler.ceilSqrt 5 = 3 := by
      have hs : Nat.sqrt 5 = 2 := by norm_num
      simp [compiler.ceilSqrt, hs]
    simp [compiler.calculate_spritesheet_size, hc]
  · have hc : compiler.ceilSqrt 5 = 3 := by
      have hs : Nat.sqrt 5 = 2 := by norm_num
      simp [compiler.ceilSqrt, hs]
    show (compiler.create_spritesheet
      [⟨64, 64⟩, ⟨64, 64⟩, ⟨64, 64⟩, ⟨64, 64⟩, ⟨64, 64⟩]).map
      (fun sd => sd.frame_positions[4]?) = Except.ok (some (64, 64))
    simp only [compiler.create_spritesheet, compiler.calculate_spritesheet_size,
      List.length_cons, List.length_nil, hc]
    norm_num
    rfl

/-- Witness for C9 with two 8 by 8 frames. -/
theorem spritesheet_layout_witness :
    (∃ sd : compiler.SpritesheetData,
      compiler.create_spritesheet [⟨8, 8⟩, ⟨8, 8⟩] = Except.ok sd ∧
      sd.frame_size = ((⟨8, 8⟩ : compiler.PImg).w, (⟨8, 8⟩ : compiler.PImg).h) ∧
      sd.sheetW = compiler.ceilSqrt ([⟨8, 8⟩, ⟨8, 8⟩] : List compiler.PImg).length *
        (⟨8, 8⟩ : compiler.PImg).w ∧
      sd.sheetH = ((([⟨8, 8⟩, ⟨8, 8⟩] : List compiler.PImg).length +
          compiler.ceilSqrt ([⟨8, 8⟩, ⟨8, 8⟩] : List compiler.PImg).length - 1) /
        compiler.ceilSqrt ([⟨8, 8⟩, ⟨8, 8⟩] : List compiler.PImg).length) *
        (⟨8, 8⟩ : compiler.PImg).h ∧
      sd.frame_positions.length = ([⟨8, 8⟩, ⟨8, 8⟩] : List compiler.PImg).length ∧
      (∀ i, i < ([⟨8, 8⟩, ⟨8, 8⟩] : List compiler.PImg).length →
        sd.frame_positions[i]? =
          some ((i % compiler.ceilSqrt ([⟨8, 8⟩, ⟨8, 8⟩] : List compiler.PImg).length) *
              (⟨8, 8⟩ : compiler.PImg).w,
            (i / compiler.ceilSqrt ([⟨8, 8⟩, ⟨8, 8⟩] : List compiler.PImg).length) *
              (⟨8, 8⟩ : compiler.PImg).h))) ∧
    ([⟨8, 8⟩, ⟨8, 8⟩] : List compiler.PImg).length ≤
      compiler.ceilSqrt ([⟨8, 8⟩, ⟨8, 8⟩] : List compiler.PImg).length *
        compiler.ceilSqrt ([⟨8, 8⟩, ⟨8, 8⟩] : List compiler.PImg).length ∧
    (compiler.ceilSqrt ([⟨8, 8⟩, ⟨8, 8⟩] : List compiler.PImg).length - 1) *
        (compiler.ceilSqrt ([⟨8, 8⟩, ⟨8, 8⟩] : List compiler.PImg).length - 1) <
      ([⟨8, 8⟩, ⟨8, 8⟩] : List compiler.PImg).length ∧
    compiler.calculate_spritesheet_size 5 (64, 64) = (192, 128, 3, 2) ∧
    (compiler.create_spritesheet (List.replicate 5 (⟨64, 64⟩ : compiler.PImg))).map
      (fun sd => sd.frame_positions[4]?) = Except.ok (some (64, 64)) :=
  spritesheet_layout [⟨8, 8⟩, ⟨8, 8⟩] ⟨8, 8⟩ [⟨8, 8⟩] rfl

/-- Claim C10 (safety): every frame placement computed by the packer
lies entirely within the atlas: for `n ≥ 1` frames of size `w × h` with
`w, h ≥ 1`, every position `(x, y)` in the placement list satisfies
`x + w ≤ cols * w` (the sheet width) and `y + h ≤ rows * h` (the sheet
height), since `i / cols < rows = ceil(n / cols)`; no frame is pasted
outside or clipped at the atlas boundary. -/
theorem frame_placements_within_atlas (frames : List compiler.PImg)
    (f0 : compiler.PImg) (rest : List compiler.PImg) (hf : frames = f0 :: rest)
    (hw : 1 ≤ f0.w) (hh : 1 ≤ f0.h) :
    ∃ sd : compiler.SpritesheetData,
      compiler.create_spritesheet frames = Except.ok sd ∧
      ∀ pos ∈ sd.frame_positions,
        pos.1 + f0.w ≤ sd.sheetW ∧ pos.2 + f0.h ≤ sd.sheetH := by
  subst hf
  refine ⟨⟨compiler.ceilSqrt (f0 :: rest).length * f0.w,
    (((f0 :: rest).length + compiler.ceilSqrt (f0 :: rest).length - 1) /
      compiler.ceilSqrt (f0 :: rest).length) * f0.h,
    (List.range (f0 :: rest).length).map
      (fun i => ((i % compiler.ceilSqrt (f0 :: rest).length) * f0.w,
        (i / compiler.ceilSqrt (f0 :: rest).length) * f0.h)),
    (f0.w, f0.h)⟩, rfl, ?_⟩
  intro pos hpos
  rw [List.mem_map] at hpos
  obtain ⟨i, hi, hpe⟩ := hpos
  rw [List.mem_range] at hi
  subst hpe
  have hn : 1 ≤ (f0 :: rest).length := by simp
  have hc := compiler.ceilSqrt_pos (f0 :: rest).length hn
  have hcr := compiler.le_cols_mul_rows (f0 :: rest).length hn
  constructor
  · show (i % compiler.ceilSqrt (f0 :: rest).length) * f0.w + f0.w ≤
      compiler.ceilSqrt (f0 :: rest).length * f0.w
    have h1 : i % compiler.ceilSqrt (f0 :: rest).length <
        compiler.ceilSqrt (f0 :: rest).length := Nat.mod_lt _ hc
    have h2 : (i % compiler.ceilSqrt (f0 :: rest).length + 1) * f0.w ≤
        compiler.ceilSqrt (f0 :: rest).length * f0.w :=
      Nat.mul_le_mul_right _ (by omega)
    calc (i % compiler.ceilSqrt (f0 :: rest).length) * f0.w + f0.w
        = (i % compiler.ceilSqrt (f0 :: rest).length + 1) * f0.w :=
          (Nat.succ_mul _ _).symm
      _ ≤ compiler.ceilSqrt (f0 :: rest).length * f0.w := h2
  · show (i / compiler.ceilSqrt (f0 :: rest).length) * f0.h + f0.h ≤
      (((f0 :: rest).length + compiler.ceilSqrt (f0 :: rest).length - 1) /
        compiler.ceilSqrt (f0 :: rest).length) * f0.h
    have hrows : i / compiler.ceilSqrt (f0 :: rest).length <
        ((f0 :: rest).length + compiler.ceilSqrt (f0 :: rest).length - 1) /
          compiler.ceilSqrt (f0 :: rest).length := by
      rw [Nat.div_lt_iff_lt_mul hc]
      rw [Nat.mul_comm] at hcr
      omega
    have h2 : (i / compiler.ceilSqrt (f0 :: rest).length + 1) * f0.h ≤
        (((f0 :: rest).length + compiler.ceilSqrt (f0 :: rest).length - 1) /
          compiler.ceilSqrt (f0 :: rest).length) * f0.h :=
      Nat.mul_le_mul_right _ (by omega)
    calc (i / compiler.ceilSqrt (f0 :: rest).length) * f0.h + f0.h
        = (i / compiler.ceilSqrt (f0 :: rest).length + 1) * f0.h :=
          (Nat.succ_mul _ _).symm
      _ ≤ _ := h2

/-- Witness for C10 with three 4 by 3 frames. -/
theorem frame_placements_within_atlas_witness :
    ∃ sd : compiler.SpritesheetData,
      compiler.create_spritesheet [⟨4, 3⟩, ⟨4, 3⟩, ⟨4, 3⟩] = Except.ok sd ∧
      ∀ pos ∈ sd.frame_positions,
        pos.1 + (⟨4, 3⟩ : compiler.PImg).w ≤ sd.sheetW ∧
        pos.2 + (⟨4, 3⟩ : compiler.PImg).h ≤ sd.sheetH :=
  frame_placements_within_atlas [⟨4, 3⟩, ⟨4, 3⟩, ⟨4, 3⟩] ⟨4, 3⟩ [⟨4, 3⟩, ⟨4, 3⟩]
    rfl (by decide) (by decide)

/-- Claim C8: synthesized frame `i` (for `i < n`) has
`time = i / fps`, position = configured offset plus
`(100 - scalePercent) * 0.8` on both axes, scale
`targetSize * (scalePercent / 100)` on both axes, rotation 0, opacity
100, sprite name `frame_{i:03}`, and every channel's immediate state SET
except Color, which is UNSET. -/
theorem create_frames_spec (ts n : Nat) (cfg : builder.AnimationConfig) (i : Nat)
    (hi : i < n) (hfps : 0 < cfg.fps) :
    (builder.create_frames ts n cfg)[i]? = some
      ⟨(i : ℚ) / cfg.fps,
        ⟨.SET, cfg.position_x + (100 - cfg.scale) * (8 / 10),
          cfg.position_y + (100 - cfg.scale) * (8 / 10)⟩,
        ⟨.SET, (ts : ℚ) * (cfg.scale / 100), (ts : ℚ) * (cfg.scale / 100)⟩,
        ⟨.SET, 0⟩, ⟨.SET, 100⟩, ⟨.SET, builder.spriteName i⟩,
        ⟨.UNSET, -1, -1, -1⟩⟩ ∧
    (builder.create_frames ts n cfg).length = n := by
  constructor
  · simp only [builder.create_frames]
    rw [List.getElem?_map, List.getElem?_range hi]
    simp [builder.AnimationConfig.frame_time, mul_one_div, div_eq_mul_inv]
  · simp [builder.create_frames]

/-- Witness for C8: frame 1 of a 2-frame animation at 30 fps, scale 50,
target size 192. -/
theorem create_frames_spec_witness :
    (builder.create_frames 192 2
        ⟨"Idle", processor.AnimationType.FOLDER, none, none, 30, true,
          animation.BlendMode.NORMAL, 0, -70, 50⟩)[1]? = some
      ⟨(1 : ℚ) / (30 : ℚ),
        ⟨.SET, (0 : ℚ) + (100 - (50 : ℚ)) * (8 / 10),
          (-70 : ℚ) + (100 - (50 : ℚ)) * (8 / 10)⟩,
        ⟨.SET, ((192 : Nat) : ℚ) * ((50 : ℚ) / 100), ((192 : Nat) : ℚ) * ((50 : ℚ) / 100)⟩,
        ⟨.SET, 0⟩, ⟨.SET, 100⟩, ⟨.SET, builder.spriteName 1⟩,
        ⟨.UNSET, -1, -1, -1⟩⟩ ∧
    (builder.create_frames 192 2
        ⟨"Idle", processor.AnimationType.FOLDER, none, none, 30, true,
          animation.BlendMode.NORMAL, 0, -70, 50⟩).length = 2 :=
  create_frames_spec 192 2
    ⟨"Idle", processor.AnimationType.FOLDER, none, none, 30, true,
      animation.BlendMode.NORMAL, 0, -70, 50⟩ 1 (by decide) (by norm_num)

namespace builder

open processor

theorem find?_append_left {α : Type} {p : α → Bool} {l1 l2 : List α} {a : α}
    (h : l1.find? p = some a) : (l1 ++ l2).find? p = some a := by
  rw [List.find?_append, h]
  rfl

theorem find?_proj_eq_of_mem_nodup {α : Type} (f : α → String) (l : List α) (a : α)
    (r : String) (hnd : (l.map f).Nodup) (ha : a ∈ l) (hf : f a = r) :
    l.find? (fun x => f x == r) = some a := by
  induction l with
  | nil => cases ha
  | cons b bs ih =>
    rw [List.map_cons, List.nodup_cons] at hnd
    rcases List.mem_cons.mp ha with rfl | ha'
    · have : (f a == r) = true := by simp [hf]
      simp [List.find?, this]
    · have hbne : (f b == r) = false := by
        apply beq_eq_false_iff_ne.mpr
        intro he
        exact hnd.1 (he ▸ hf ▸ List.mem_map_of_mem f ha')
      simp only [List.find?, hbne]
      exact ih hnd.2 ha'

theorem mem_name_unique (cfgs : List AnimationConfig)
    (hnd : (cfgs.map (fun d => d.name)).Nodup) :
    ∀ c ∈ cfgs, ∀ d ∈ cfgs, c.name = d.name → c = d := by
  induction cfgs with
  | nil => intro c hc; cases hc
  | cons x xs ih =>
    rw [List.map_cons, List.nodup_cons] at hnd
    intro c hc d hd he
    rcases List.mem_cons.mp hc with rfl | hc' <;> rcases List.mem_cons.mp hd with rfl | hd'
    · rfl
    · exact absurd (he ▸ List.mem_map_of_mem (fun q => q.name) hd') hnd.1
    · exact absurd (he ▸ List.mem_map_of_mem (fun q => q.name) hc') hnd.1
    · exact ih hnd.2 c hc' d hd' he

theorem lookupSource_eq_none (mp : List (String × Source)) (r : String)
    (h : r ∉ mp.map Prod.fst) : lookupSource mp r = none := by
  unfold lookupSource
  have : mp.find? (fun pr => pr.1 == r) = none := by
    rw [List.find?_eq_none]
    intro pr hpr
    simp only [beq_iff_eq]
    intro he
    exact h (he ▸ List.mem_map_of_mem Prod.fst hpr)
  rw [this]
  rfl

theorem folderNames_cons_folder (c : AnimationConfig) (rest : List AnimationConfig)
    (h : c.type = AnimationType.FOLDER) :
    folderNames (c :: rest) = c.name :: folderNames rest := by
  simp [folderNames, List.filter_cons, h]

theorem folderNames_cons_other (c : AnimationConfig) (rest : List AnimationConfig)
    (h : ¬c.type = AnimationType.FOLDER) :
    folderNames (c :: rest) = folderNames rest := by
  simp [folderNames, List.filter_cons, h]

theorem pass1_shape (ts : Nat) (common : String) (fc : String → Option Nat) :
    ∀ (cfgs : List AnimationConfig) (st st' : BuildSt),
    pass1 ts common fc st cfgs = Except.ok st' →
    st'.sources.length = st.sources.length +
      (cfgs.filter (fun c => decide (c.type = AnimationType.FOLDER))).length ∧
    st'.animations.map (fun a => a.name) =
      st.animations.map (fun a => a.name) ++ folderNames cfgs ∧
    st'.source_map.map Prod.fst = st.source_map.map Prod.fst ++ folderNames cfgs ∧
    st'.processed = st.processed ++ folderNames cfgs ∧
    (∀ a ∈ st.animations, a ∈ st'.animations) ∧
    (∀ pr ∈ st.source_map, pr ∈ st'.source_map) := by
  intro cfgs
  induction cfgs with
  | nil =>
    intro st st' h
    have : st = st' := by
      have := h
      simp [pass1] at this
      exact this
    subst this
    simp [folderNames]
  | cons c rest ih =>
    intro st st' h
    by_cases hty : c.type = AnimationType.FOLDER
    · rw [show pass1 ts common fc st (c :: rest) =
          (match fc c.name with
           | none => Except.error ("No frame count for animation " ++ c.name)
           | some k =>
             let src := create_source c.name common st.source_counter
             pass1 ts common fc
               ⟨st.sources ++ [src],
                 st.animations ++ [create_animation ts c.name k src.id c common st.layer_counter],
                 st.source_map ++ [(c.name, src)],
                 st.processed ++ [c.name],
                 st.source_counter + 1, st.layer_counter + 1⟩ rest) from by
        simp [pass1, hty]] at h
      cases hfc : fc c.name with
      | none => rw [hfc] at h; cases h
      | some k =>
        rw [hfc] at h
        obtain ⟨h1, h2, h3, h4, h5, h6⟩ := ih _ st' h
        rw [folderNames_cons_folder c rest hty]
        refine ⟨?_, ?_, ?_, ?_, ?_, ?_⟩
        · rw [h1]
          simp [List.filter_cons, hty]
          omega
        · rw [h2]
          simp [create_animation]
        · rw [h3]
          simp
        · rw [h4]
          simp
        · intro a ha
          exact h5 a (by simp [ha])
        · intro pr hpr
          exact h6 pr (by simp [hpr])
    · rw [show pass1 ts common fc st (c :: rest) = pass1 ts common fc st rest from by
        simp [pass1, hty]] at h
      rw [folderNames_cons_other c rest hty]
      have hfilter : (c :: rest).filter (fun d => decide (d.type = AnimationType.FOLDER)) =
          rest.filter (fun d => decide (d.type = AnimationType.FOLDER)) := by
        simp [List.filter_cons, hty]
      rw [hfilter]
      exact ih st st' h

theorem pass1_cons_folder (ts : Nat) (common : String) (fc : String → Option Nat)
    (st : BuildSt) (c : AnimationConfig) (rest : List AnimationConfig) (k : Nat)
    (hty : c.type = AnimationType.FOLDER) (hfc : fc c.name = some k) :
    pass1 ts common fc st (c :: rest) =
      pass1 ts common fc
        ⟨st.sources ++ [create_source c.name common st.source_counter],
          st.animations ++ [create_animation ts c.name k
            (create_source c.name common st.source_counter).id c common st.layer_counter],
          st.source_map ++ [(c.name, create_source c.name common st.source_counter)],
          st.processed ++ [c.name],
          st.source_counter + 1, st.layer_counter + 1⟩ rest := by
  simp [pass1, hty, hfc]

theorem pass1_cons_other (ts : Nat) (common : String) (fc : String → Option Nat)
    (st : BuildSt) (c : AnimationConfig) (rest : List AnimationConfig)
    (hty : ¬c.type = AnimationType.FOLDER) :
    pass1 ts common fc st (c :: rest) = pass1 ts common fc st rest := by
  simp [pass1, hty]

theorem create_animation_spec (ts : Nat) (name : String) (k sid : Nat)
    (cfg : AnimationConfig) (common : String) (lc : Nat) :
    (create_animation ts name k sid cfg common lc).name = name ∧
    ∃ lay, (create_animation ts name k sid cfg common lc).layers = [lay] ∧
      lay.source = sid ∧ lay.frames.length = k := by
  refine ⟨rfl, ⟨create_layer ts k sid cfg common lc, rfl, rfl, ?_⟩⟩
  simp [create_layer, create_frames]

theorem pass1_resolves (ts : Nat) (common : String) (fc : String → Option Nat) :
    ∀ (cfgs : List AnimationConfig) (st st' : BuildSt),
    pass1 ts common fc st cfgs = Except.ok st' →
    ∀ rc ∈ cfgs, rc.type = AnimationType.FOLDER →
    ∃ (k : Nat) (src : Source), fc rc.name = some k ∧ (rc.name, src) ∈ st'.source_map ∧
      ∃ anim ∈ st'.animations, anim.name = rc.name ∧
        ∃ lay, anim.layers = [lay] ∧ lay.source = src.id ∧ lay.frames.length = k := by
  intro cfgs
  induction cfgs with
  | nil => intro st st' h rc hrc; cases hrc
  | cons c rest ih =>
    intro st st' h rc hrc hrcf
    by_cases hty : c.type = AnimationType.FOLDER
    · cases hfc : fc c.name with
      | none =>
        rw [show pass1 ts common fc st (c :: rest) =
            Except.error ("No frame count for animation " ++ c.name) from by
          simp [pass1, hty, hfc]] at h
        cases h
      | some k =>
        rw [pass1_cons_folder ts common fc st c rest k hty hfc] at h
        rcases List.mem_cons.mp hrc with rfl | hrc'
        · refine ⟨k, create_source rc.name common st.source_counter, hfc, ?_, ?_⟩
          · refine (pass1_shape ts common fc rest _ st' h).2.2.2.2.2 _ ?_
            simp
          · obtain ⟨hname, lay, hlay, hsrc, hlen⟩ :=
              create_animation_spec ts rc.name k
                (create_source rc.name common st.source_counter).id rc common st.layer_counter
            refine ⟨create_animation ts rc.name k
              (create_source rc.name common st.source_counter).id rc common
                st.layer_counter, ?_, hname, lay, hlay, hsrc, hlen⟩
            refine (pass1_shape ts common fc rest _ st' h).2.2.2.2.1 _ ?_
            simp
        · exact ih _ st' h rc hrc' hrcf
    · rw [pass1_cons_other ts common fc st c rest hty] at h
      rcases List.mem_cons.mp hrc with rfl | hrc'
      · exact absurd hrcf hty
      · exact ih st st' h rc hrc' hrcf

theorem pass2_shape (ts : Nat) (common : String) :
    ∀ (cfgs : List AnimationConfig) (st st' : BuildSt),
    pass2 ts common st cfgs = Except.ok st' →
    st'.sources = st.sources ∧ st'.source_map = st.source_map ∧
    (∀ a ∈ st.animations, a ∈ st'.animations) ∧
    (∀ x ∈ st.processed, x ∈ st'.processed) := by
  intro cfgs
  induction cfgs with
  | nil =>
    intro st st' h
    have heq : st = st' := by
      simp [pass2] at h
      exact h
    subst heq
    exact ⟨rfl, rfl, fun a ha => ha, fun x hx => hx⟩
  | cons c rest ih =>
    intro st st' h
    by_cases hcond : (c.type = AnimationType.FOLDER ∨ c.name ∈ st.processed)
    · rw [show pass2 ts common st (c :: rest) = pass2 ts common st rest from by
        simp [pass2, hcond]] at h
      exact ih st st' h
    · have hcondp := hcond
      push_neg at hcondp
      obtain ⟨hcond1, hcond2⟩ := hcondp
      cases href : c.reference_anim with
      | none =>
        rw [show pass2 ts common st (c :: rest) =
            Except.error ("No reference animation specified for " ++ c.name) from by
          simp [pass2, hcond1, hcond2, href]] at h
        cases h
      | some r =>
        cases hfind : st.animations.find? (fun a => a.name == r) with
        | none =>
          rw [show pass2 ts common st (c :: rest) =
              Except.error ("Reference animation " ++ r ++ " not found") from by
            simp [pass2, hcond1, hcond2, href, hfind]] at h
          cases h
        | some refA =>
          cases hlook : lookupSource st.source_map r with
          | none =>
            rw [show pass2 ts common st (c :: rest) =
                Except.error ("Reference source for " ++ r ++ " not found") from by
              simp [pass2, hcond1, hcond2, href, hfind, hlook]] at h
            cases h
          | some refS =>
            by_cases hff : c.type = AnimationType.FIRST_FRAME
            · rw [show pass2 ts common st (c :: rest) = pass2 ts common
                  ⟨st.sources,
                    st.animations ++ [create_animation ts c.name 1 refS.id c common st.layer_counter],
                    st.source_map, st.processed ++ [c.name],
                    st.source_counter, st.layer_counter + 1⟩ rest from by
                simp [pass2, hcond1, hcond2, href, hfind, hlook, hff]] at h
              obtain ⟨g1, g2, g3, g4⟩ := ih _ st' h
              exact ⟨g1, g2, fun a ha => g3 a (by simp [ha]), fun x hx => g4 x (by simp [hx])⟩
            · cases hlay : refA.layers with
              | nil =>
                rw [show pass2 ts common st (c :: rest) =
                    Except.error "list index out of range" from by
                  simp [pass2, hcond1, hcond2, href, hfind, hlook, hff, hlay]] at h
                cases h
              | cons l ls =>
                rw [show pass2 ts common st (c :: rest) = pass2 ts common
                    ⟨st.sources,
                      st.animations ++ [create_animation ts c.name l.frames.length refS.id c
                        common st.layer_counter],
                      st.source_map, st.processed ++ [c.name],
                      st.source_counter, st.layer_counter + 1⟩ rest from by
                  simp [pass2, hcond1, hcond2, href, hfind, hlook, hff, hlay]] at h
                obtain ⟨g1, g2, g3, g4⟩ := ih _ st' h
                exact ⟨g1, g2, fun a ha => g3 a (by simp [ha]), fun x hx => g4 x (by simp [hx])⟩

theorem pass2_produces (ts : Nat) (common : String) :
    ∀ (cfgs : List AnimationConfig) (st st' : BuildSt) (c : AnimationConfig)
      (r : String) (ra : Animation) (rsrc : Source),
    pass2 ts common st cfgs = Except.ok st' →
    c ∈ cfgs → c.type ≠ AnimationType.FOLDER → c.name ∉ st.processed →
    (cfgs.map (fun d => d.name)).Nodup →
    c.reference_anim = some r →
    st.animations.find? (fun a => a.name == r) = some ra →
    lookupSource st.source_map r = some rsrc →
    ∃ a ∈ st'.animations, a.name = c.name ∧
      ∃ lay, a.layers = [lay] ∧ lay.source = rsrc.id ∧
        ((c.type = AnimationType.FIRST_FRAME ∧ lay.frames.length = 1) ∨
         (c.type ≠ AnimationType.FIRST_FRAME ∧
           ∃ rl rls, ra.layers = rl :: rls ∧ lay.frames.length = rl.frames.length)) := by
  intro cfgs
  induction cfgs with
  | nil =>
    intro st st' c r ra rsrc h hc
    cases hc
  | cons d rest ih =>
    intro st st' c r ra rsrc h hc hcf hcp hnd href hfind hlook
    rw [List.map_cons, List.nodup_cons] at hnd
    by_cases hcond : (d.type = AnimationType.FOLDER ∨ d.name ∈ st.processed)
    · rw [show pass2 ts common st (d :: rest) = pass2 ts common st rest from by
        simp [pass2, hcond]] at h
      rcases List.mem_cons.mp hc with rfl | hc'
      · rcases hcond with h1 | h2
        · exact absurd h1 hcf
        · exact absurd h2 hcp
      · exact ih st st' c r ra rsrc h hc' hcf hcp hnd.2 href hfind hlook
    · have hcondp := hcond
      push_neg at hcondp
      obtain ⟨hcond1, hcond2⟩ := hcondp
      cases hdref : d.reference_anim with
      | none =>
        rw [show pass2 ts common st (d :: rest) =
            Except.error ("No reference animation specified for " ++ d.name) from by
          simp [pass2, hcond1, hcond2, hdref]] at h
        cases h
      | some rd =>
        cases hdfind : st.animations.find? (fun a => a.name == rd) with
        | none =>
          rw [show pass2 ts common st (d :: rest) =
              Except.error ("Reference animation " ++ rd ++ " not found") from by
            simp [pass2, hcond1, hcond2, hdref, hdfind]] at h
          cases h
        | some refA =>
          cases hdlook : lookupSource st.source_map rd with
          | none =>
            rw [show pass2 ts common st (d :: rest) =
                Except.error ("Reference source for " ++ rd ++ " not found") from by
              simp [pass2, hcond1, hcond2, hdref, hdfind, hdlook]] at h
            cases h
          | some refS =>
            by_cases hff : d.type = AnimationType.FIRST_FRAME
            · rw [show pass2 ts common st (d :: rest) = pass2 ts common
                  ⟨st.sources,
                    st.animations ++ [create_animation ts d.name 1 refS.id d common st.layer_counter],
                    st.source_map, st.processed ++ [d.name],
                    st.source_counter, st.layer_counter + 1⟩ rest from by
                simp [pass2, hcond1, hcond2, hdref, hdfind, hdlook, hff]] at h
              rcases List.mem_cons.mp hc with rfl | hc'
              · rw [href] at hdref
                have hrd : rd = r := (Option.some.inj hdref).symm
                have hrs : refS = rsrc := by
                  rw [hrd, hlook] at hdlook
                  exact (Option.some.inj hdlook).symm
                rw [hrs] at h
                obtain ⟨hname, lay, hlay, hsrc, hlen⟩ :=
                  create_animation_spec ts c.name 1 rsrc.id c common st.layer_counter
                refine ⟨create_animation ts c.name 1 rsrc.id c common st.layer_counter,
                  ?_, hname, lay, hlay, hsrc, Or.inl ⟨hff, hlen⟩⟩
                refine (pass2_shape ts common rest _ st' h).2.2.1 _ ?_
                simp
              · refine ih _ st' c r ra rsrc h hc' hcf ?_ hnd.2 href ?_ hlook
                · show c.name ∉ st.processed ++ [d.name]
                  simp only [List.mem_append, List.mem_singleton]
                  push_neg
                  refine ⟨hcp, ?_⟩
                  intro he
                  exact hnd.1 (he ▸ List.mem_map_of_mem (fun q => q.name) hc')
                · exact find?_append_left hfind
            · cases hlay : refA.layers with
              | nil =>
                rw [show pass2 ts common st (d :: rest) =
                    Except.error "list index out of range" from by
                  simp [pass2, hcond1, hcond2, hdref, hdfind, hdlook, hff, hlay]] at h
                cases h
              | cons l ls =>
                rw [show pass2 ts common st (d :: rest) = pass2 ts common
                    ⟨st.sources,
                      st.animations ++ [create_animation ts d.name l.frames.length refS.id d
                        common st.layer_counter],
                      st.source_map, st.processed ++ [d.name],
                      st.source_counter, st.layer_counter + 1⟩ rest from by
                  simp [pass2, hcond1, hcond2, hdref, hdfind, hdlook, hff, hlay]] at h
                rcases List.mem_cons.mp hc with rfl | hc'
                · rw [href] at hdref
                  have hrd : rd = r := (Option.some.inj hdref).symm
                  have hra : refA = ra := by
                    rw [hrd, hfind] at hdfind
                    exact (Option.some.inj hdfind).symm
                  have hrs : refS = rsrc := by
                    rw [hrd, hlook] at hdlook
                    exact (Option.some.inj hdlook).symm
                  rw [hrs] at h
                  rw [hra] at hlay
                  obtain ⟨hname, lay, hlay2, hsrc, hlen⟩ :=
                    create_animation_spec ts c.name l.frames.length rsrc.id c common
                      st.layer_counter
                  refine ⟨create_animation ts c.name l.frames.length rsrc.id c common
                    st.layer_counter, ?_, hname, lay, hlay2, hsrc,
                    Or.inr ⟨hff, l, ls, hlay, hlen⟩⟩
                  refine (pass2_shape ts common rest _ st' h).2.2.1 _ ?_
                  simp
                · refine ih _ st' c r ra rsrc h hc' hcf ?_ hnd.2 href ?_ hlook
                  · show c.name ∉ st.processed ++ [d.name]
                    simp only [List.mem_append, List.mem_singleton]
                    push_neg
                    refine ⟨hcp, ?_⟩
                    intro he
                    exact hnd.1 (he ▸ List.mem_map_of_mem (fun q => q.name) hc')
                  · exact find?_append_left hfind

theorem pass2_fails (ts : Nat) (common : String) :
    ∀ (cfgs : List AnimationConfig) (st : BuildSt) (c : AnimationConfig),
    c ∈ cfgs → c.type ≠ AnimationType.FOLDER → c.name ∉ st.processed →
    (cfgs.map (fun d => d.name)).Nodup →
    (c.reference_anim = none ∨
      ∃ r, c.reference_anim = some r ∧ lookupSource st.source_map r = none) →
    ∀ stF, pass2 ts common st cfgs ≠ Except.ok stF := by
  intro cfgs
  induction cfgs with
  | nil =>
    intro st c hc
    cases hc
  | cons d rest ih =>
    intro st c hc hcf hcp hnd hbad stF h
    rw [List.map_cons, List.nodup_cons] at hnd
    by_cases hcond : (d.type = AnimationType.FOLDER ∨ d.name ∈ st.processed)
    · rw [show pass2 ts common st (d :: rest) = pass2 ts common st rest from by
        simp [pass2, hcond]] at h
      rcases List.mem_cons.mp hc with rfl | hc'
      · rcases hcond with h1 | h2
        · exact hcf h1
        · exact hcp h2
      · exact ih st c hc' hcf hcp hnd.2 hbad stF h
    · have hcondp := hcond
      push_neg at hcondp
      obtain ⟨hcond1, hcond2⟩ := hcondp
      cases hdref : d.reference_anim with
      | none =>
        rcases List.mem_cons.mp hc with rfl | hc'
        · rw [show pass2 ts common st (c :: rest) =
              Except.error ("No reference animation specified for " ++ c.name) from by
            simp [pass2, hcond1, hcond2, hdref]] at h
          cases h
        · rw [show pass2 ts common st (d :: rest) =
              Except.error ("No reference animation specified for " ++ d.name) from by
            simp [pass2, hcond1, hcond2, hdref]] at h
          cases h
      | some rd =>
        cases hdfind : st.animations.find? (fun a => a.name == rd) with
        | none =>
          rw [show pass2 ts common st (d :: rest) =
              Except.error ("Reference animation " ++ rd ++ " not found") from by
            simp [pass2, hcond1, hcond2, hdref, hdfind]] at h
          cases h
        | some refA =>
          cases hdlook : lookupSource st.source_map rd with
          | none =>
            rw [show pass2 ts common st (d :: rest) =
                Except.error ("Reference source for " ++ rd ++ " not found") from by
              simp [pass2, hcond1, hcond2, hdref, hdfind, hdlook]] at h
            cases h
          | some refS =>
            rcases List.mem_cons.mp hc with rfl | hc'
            · rcases hbad with hnone | ⟨r, hsome, hlnone⟩
              · rw [hnone] at hdref
                cases hdref
              · rw [hsome] at hdref
                have hrd : rd = r := (Option.some.inj hdref).symm
                rw [hrd, hlnone] at hdlook
                cases hdlook
            · have hcp2 : ∀ st2p : List String, st2p = st.processed ++ [d.name] →
                  c.name ∉ st2p := by
                intro st2p he
                rw [he]
                simp only [List.mem_append, List.mem_singleton]
                push_neg
                refine ⟨hcp, ?_⟩
                intro he2
                exact hnd.1 (he2 ▸ List.mem_map_of_mem (fun q => q.name) hc')
              by_cases hff : d.type = AnimationType.FIRST_FRAME
              · rw [show pass2 ts common st (d :: rest) = pass2 ts common
                    ⟨st.sources,
                      st.animations ++ [create_animation ts d.name 1 refS.id d common st.layer_counter],
                      st.source_map, st.processed ++ [d.name],
                      st.source_counter, st.layer_counter + 1⟩ rest from by
                  simp [pass2, hcond1, hcond2, hdref, hdfind, hdlook, hff]] at h
                exact ih ⟨st.sources,
                  st.animations ++ [create_animation ts d.name 1 refS.id d common st.layer_counter],
                  st.source_map, st.processed ++ [d.name],
                  st.source_counter, st.layer_counter + 1⟩ c hc' hcf (hcp2 _ rfl)
                  hnd.2 hbad stF h
              · cases hlay : refA.layers with
                | nil =>
                  rw [show pass2 ts common st (d :: rest) =
                      Except.error "list index out of range" from by
                    simp [pass2, hcond1, hcond2, hdref, hdfind, hdlook, hff, hlay]] at h
                  cases h
                | cons l ls =>
                  rw [show pass2 ts common st (d :: rest) = pass2 ts common
                      ⟨st.sources,
                        st.animations ++ [create_animation ts d.name l.frames.length refS.id d
                          common st.layer_counter],
                        st.source_map, st.processed ++ [d.name],
                        st.source_counter, st.layer_counter + 1⟩ rest from by
                    simp [pass2, hcond1, hcond2, hdref, hdfind, hdlook, hff, hlay]] at h
                  exact ih ⟨st.sources,
                    st.animations ++ [create_animation ts d.name l.frames.length refS.id d
                      common st.layer_counter],
                    st.source_map, st.processed ++ [d.name],
                    st.source_counter, st.layer_counter + 1⟩ c hc' hcf (hcp2 _ rfl)
                    hnd.2 hbad stF h

theorem notin_folderNames (cfgs : List AnimationConfig) (c : AnimationConfig)
    (hnodup : (cfgs.map (fun d => d.name)).Nodup)
    (hc : c ∈ cfgs) (hcf : c.type ≠ AnimationType.FOLDER) :
    c.name ∉ folderNames cfgs := by
  intro hmem
  obtain ⟨d, hdf, hdna⟩ := List.mem_map.mp hmem
  have hdmem : d ∈ cfgs := List.mem_of_mem_filter hdf
  have hdty : d.type = AnimationType.FOLDER := by
    have := List.of_mem_filter hdf
    simpa using this
  have hceq := mem_name_unique cfgs hnodup c hc d hdmem hdna.symm
  rw [hceq] at hcf
  exact hcf hdty

/-- Claim C6: in a successful `build_all` run, a COPY config whose
`reference_anim` names a FOLDER animation resolved in pass 1 yields an
Animation whose single layer carries the same source id as the
reference's layer and the same frame count as the reference (which
equals the supplied frame count), while a FIRST_FRAME config likewise
reuses the reference's source id but gets exactly 1 frame; no Source is
allocated beyond the one per FOLDER config. -/
theorem copy_reuses_reference_source (ts : Nat) (cfgs : List builder.AnimationConfig)
    (fc : String → Option Nat) (bin common : String) (c rc : builder.AnimationConfig)
    (r : String) (sources : List builder.Source) (anims : List builder.Animation)
    (hnodup : (cfgs.map (fun d => d.name)).Nodup)
    (hc : c ∈ cfgs) (hcf : c.type ≠ processor.AnimationType.FOLDER)
    (href : c.reference_anim = some r)
    (hrc : rc ∈ cfgs) (hrcname : rc.name = r)
    (hrcf : rc.type = processor.AnimationType.FOLDER)
    (hok : builder.build_all ts cfgs fc bin common = Except.ok (sources, anims)) :
    sources.length = (cfgs.filter (fun d =>
      decide (d.type = processor.AnimationType.FOLDER))).length ∧
    ∃ k, fc r = some k ∧
    ∃ ra ∈ anims, ra.name = r ∧
    ∃ rlay, ra.layers = [rlay] ∧ rlay.frames.length = k ∧
    ∃ a ∈ anims, a.name = c.name ∧
    ∃ lay, a.layers = [lay] ∧ lay.source = rlay.source ∧
      lay.frames.length =
        (if c.type = processor.AnimationType.FIRST_FRAME then 1 else rlay.frames.length) := by
  cases hp1 : builder.pass1 ts common fc ⟨[], [], [], [], 0, 0⟩ cfgs with
  | error e =>
    rw [show builder.build_all ts cfgs fc bin common = Except.error e from by
      simp [builder.build_all, hp1]] at hok
    cases hok
  | ok st1 =>
    cases hp2 : builder.pass2 ts common st1 cfgs with
    | error e =>
      rw [show builder.build_all ts cfgs fc bin common = Except.error e from by
        simp [builder.build_all, hp1, hp2]] at hok
      cases hok
    | ok st2 =>
      by_cases hall : cfgs.all (fun d => decide (d.name ∈ st2.processed))
      · rw [show builder.build_all ts cfgs fc bin common =
            Except.ok (st2.sources, st2.animations) from by
          simp only [builder.build_all, hp1, hp2]
          rw [if_pos hall]] at hok
        have hpair := Prod.mk.injEq st2.sources st2.animations sources anims ▸
          (Except.ok.inj hok)
        have hsrc_eq : sources = st2.sources := hpair.1.symm
        have hanim_eq : anims = st2.animations := hpair.2.symm
        obtain ⟨s1, s2, s3, s4, s5, s6⟩ := builder.pass1_shape ts common fc cfgs _ st1 hp1
        have hnames1 : st1.animations.map (fun a => a.name) = builder.folderNames cfgs := by
          simpa using s2
        have hkeys1 : st1.source_map.map Prod.fst = builder.folderNames cfgs := by
          simpa using s3
        have hproc1 : st1.processed = builder.folderNames cfgs := by
          simpa using s4
        have hfsub : (builder.folderNames cfgs).Sublist (cfgs.map (fun d => d.name)) := by
          unfold builder.folderNames
          exact List.Sublist.map (fun d => d.name) (List.filter_sublist cfgs)
        have hfnodup : (builder.folderNames cfgs).Nodup :=
          List.Nodup.sublist hfsub hnodup
        obtain ⟨k, src, hfck, hsrcmem, ra, hramem, hraname, rlay, hrlays, hrlsrc, hrllen⟩ :=
          builder.pass1_resolves ts common fc cfgs _ st1 hp1 rc hrc hrcf
        have hfind : st1.animations.find? (fun a => a.name == r) = some ra :=
          builder.find?_proj_eq_of_mem_nodup (fun a => a.name) st1.animations ra r
            (by rw [hnames1]; exact hfnodup) hramem
            (by show ra.name = r; rw [hraname, hrcname])
        have hfindsrc : st1.source_map.find? (fun pr => pr.1 == r) = some (rc.name, src) :=
          builder.find?_proj_eq_of_mem_nodup Prod.fst st1.source_map (rc.name, src) r
            (by rw [hkeys1]; exact hfnodup) hsrcmem hrcname
        have hlook : builder.lookupSource st1.source_map r = some src := by
          unfold builder.lookupSource
          rw [hfindsrc]
          rfl
        have hcp : c.name ∉ st1.processed := by
          rw [hproc1]
          exact builder.notin_folderNames cfgs c hnodup hc hcf
        obtain ⟨a, hamem, haname, lay, hlays, hlsrc, hdisj⟩ :=
          builder.pass2_produces ts common cfgs st1 st2 c r ra src hp2 hc hcf hcp
            hnodup href hfind hlook
        have hrafin : ra ∈ st2.animations :=
          (builder.pass2_shape ts common cfgs st1 st2 hp2).2.2.1 ra hramem
        refine ⟨?_, k, by rw [← hrcname]; exact hfck, ra, ?_, ?_, rlay, hrlays, hrllen,
          a, ?_, haname, lay, hlays, ?_, ?_⟩
        · rw [hsrc_eq, (builder.pass2_shape ts common cfgs st1 st2 hp2).1]
          simpa using s1
        · rw [hanim_eq]
          exact hrafin
        · rw [hraname, hrcname]
        · rw [hanim_eq]
          exact hamem
        · rw [hlsrc, hrlsrc]
        · rcases hdisj with ⟨hffT, hlen1⟩ | ⟨hffF, rl, rls, hrlayers, hlen⟩
          · rw [if_pos hffT]
            exact hlen1
          · rw [if_neg hffF]
            rw [hrlays] at hrlayers
            injection hrlayers with h1 h2
            rw [hlen, h1]
      · rw [show builder.build_all ts cfgs fc bin common =
            Except.error "Some animations were not processed" from by
          simp only [builder.build_all, hp1, hp2]
          rw [if_neg hall]] at hok
        cases hok

/-- Claim C7: a COPY or FIRST_FRAME config whose `reference_anim` is
missing, or names no FOLDER config resolved in pass 1 (including the
case where it names another COPY/FIRST_FRAME — no transitive chaining),
makes `build_all` fail, and in the pipeline of
`AnimationManager._process_animations` this failure happens before any
output file operation (directory creation, cleanup and compilation all
run strictly after `build_all`), so no file is written. -/
theorem bad_reference_fails_before_output (ts : Nat)
    (cfgs : List builder.AnimationConfig) (fc : String → Option Nat)
    (bin common : String)
    (compileWrites : List builder.Source × List builder.Animation → List String)
    (c : builder.AnimationConfig)
    (hnodup : (cfgs.map (fun d => d.name)).Nodup)
    (hc : c ∈ cfgs) (hcf : c.type ≠ processor.AnimationType.FOLDER)
    (hbad : c.reference_anim = none ∨
      ∃ r, c.reference_anim = some r ∧
        ∀ d ∈ cfgs, d.name = r → d.type ≠ processor.AnimationType.FOLDER) :
    (∀ res, builder.build_all ts cfgs fc bin common ≠ Except.ok res) ∧
    anim_maker.processAnimationsWrites ts cfgs fc bin common compileWrites = [] := by
  have hmain : ∀ res, builder.build_all ts cfgs fc bin common ≠ Except.ok res := by
    intro res hok
    cases hp1 : builder.pass1 ts common fc ⟨[], [], [], [], 0, 0⟩ cfgs with
    | error e =>
      rw [show builder.build_all ts cfgs fc bin common = Except.error e from by
        simp [builder.build_all, hp1]] at hok
      cases hok
    | ok st1 =>
      obtain ⟨s1, s2, s3, s4, s5, s6⟩ := builder.pass1_shape ts common fc cfgs _ st1 hp1
      have hkeys1 : st1.source_map.map Prod.fst = builder.folderNames cfgs := by
        simpa using s3
      have hproc1 : st1.processed = builder.folderNames cfgs := by
        simpa using s4
      have hcp : c.name ∉ st1.processed := by
        rw [hproc1]
        exact builder.notin_folderNames cfgs c hnodup hc hcf
      have hbad2 : c.reference_anim = none ∨
          ∃ r, c.reference_anim = some r ∧
            builder.lookupSource st1.source_map r = none := by
        rcases hbad with hn | ⟨r, hs, hall⟩
        · exact Or.inl hn
        · refine Or.inr ⟨r, hs, builder.lookupSource_eq_none _ _ ?_⟩
          rw [hkeys1]
          intro hrk
          obtain ⟨d, hdf, hdname⟩ := List.mem_map.mp hrk
          have hdmem : d ∈ cfgs := List.mem_of_mem_filter hdf
          have hdty : d.type = processor.AnimationType.FOLDER := by
            have := List.of_mem_filter hdf
            simpa using this
          exact hall d hdmem hdname hdty
      have hfails := builder.pass2_fails ts common cfgs st1 c hc hcf hcp hnodup hbad2
      cases hp2 : builder.pass2 ts common st1 cfgs with
      | error e =>
        rw [show builder.build_all ts cfgs fc bin common = Except.error e from by
          simp [builder.build_all, hp1, hp2]] at hok
        cases hok
      | ok st2 => exact hfails st2 hp2
  refine ⟨hmain, ?_⟩
  unfold anim_maker.processAnimationsWrites
  cases hb : builder.build_all ts cfgs fc bin common with
  | error e => rfl
  | ok res => exact absurd hb (hmain res)

/-- Witness for C6: a FOLDER config "Idle" with one frame and a COPY
config "Run" referencing it. -/
theorem copy_reuses_reference_source_witness :
    (((builder.build_all 2 [⟨"Idle", processor.AnimationType.FOLDER, none, none, 30, true, animation.BlendMode.NORMAL, 0, -70, 100⟩, ⟨"Run", processor.AnimationType.COPY, none, some "Idle", 30, true, animation.BlendMode.NORMAL, 0, -70, 100⟩] (fun s => if s = "Idle" then (some 1 : Option Nat) else none) "b" "A").toOption.getD ([], [])).1).length = (([⟨"Idle", processor.AnimationType.FOLDER, none, none, 30, true, animation.BlendMode.NORMAL, 0, -70, 100⟩, ⟨"Run", processor.AnimationType.COPY, none, some "Idle", 30, true, animation.BlendMode.NORMAL, 0, -70, 100⟩] : List builder.AnimationConfig).filter (fun d =>
      decide (d.type = processor.AnimationType.FOLDER))).length ∧
    ∃ k, (fun s => if s = "Idle" then (some 1 : Option Nat) else none) "Idle" = some k ∧
    ∃ ra ∈ ((builder.build_all 2 [⟨"Idle", processor.AnimationType.FOLDER, none, none, 30, true, animation.BlendMode.NORMAL, 0, -70, 100⟩, ⟨"Run", processor.AnimationType.COPY, none, some "Idle", 30, true, animation.BlendMode.NORMAL, 0, -70, 100⟩] (fun s => if s = "Idle" then (some 1 : Option Nat) else none) "b" "A").toOption.getD ([], [])).2, ra.name = "Idle" ∧
    ∃ rlay, ra.layers = [rlay] ∧ rlay.frames.length = k ∧
    ∃ a ∈ ((builder.build_all 2 [⟨"Idle", processor.AnimationType.FOLDER, none, none, 30, true, animation.BlendMode.NORMAL, 0, -70, 100⟩, ⟨"Run", processor.AnimationType.COPY, none, some "Idle", 30, true, animation.BlendMode.NORMAL, 0, -70, 100⟩] (fun s => if s = "Idle" then (some 1 : Option Nat) else none) "b" "A").toOption.getD ([], [])).2, a.name = ((⟨"Run", processor.AnimationType.COPY, none, some "Idle", 30, true, animation.BlendMode.NORMAL, 0, -70, 100⟩ : builder.AnimationConfig)).name ∧
    ∃ lay, a.layers = [lay] ∧ lay.source = rlay.source ∧
      lay.frames.length =
        (if ((⟨"Run", processor.AnimationType.COPY, none, some "Idle", 30, true, animation.BlendMode.NORMAL, 0, -70, 100⟩ : builder.AnimationConfig)).type = processor.AnimationType.FIRST_FRAME then 1 else rlay.frames.length) :=
  copy_reuses_reference_source 2 [⟨"Idle", processor.AnimationType.FOLDER, none, none, 30, true, animation.BlendMode.NORMAL, 0, -70, 100⟩, ⟨"Run", processor.AnimationType.COPY, none, some "Idle", 30, true, animation.BlendMode.NORMAL, 0, -70, 100⟩] (fun s => if s = "Idle" then (some 1 : Option Nat) else none) "b" "A" (⟨"Run", processor.AnimationType.COPY, none, some "Idle", 30, true, animation.BlendMode.NORMAL, 0, -70, 100⟩ : builder.AnimationConfig) (⟨"Idle", processor.AnimationType.FOLDER, none, none, 30, true, animation.BlendMode.NORMAL, 0, -70, 100⟩ : builder.AnimationConfig) "Idle"
    (((builder.build_all 2 [⟨"Idle", processor.AnimationType.FOLDER, none, none, 30, true, animation.BlendMode.NORMAL, 0, -70, 100⟩, ⟨"Run", processor.AnimationType.COPY, none, some "Idle", 30, true, animation.BlendMode.NORMAL, 0, -70, 100⟩] (fun s => if s = "Idle" then (some 1 : Option Nat) else none) "b" "A").toOption.getD ([], [])).1) (((builder.build_all 2 [⟨"Idle", processor.AnimationType.FOLDER, none, none, 30, true, animation.BlendMode.NORMAL, 0, -70, 100⟩, ⟨"Run", processor.AnimationType.COPY, none, some "Idle", 30, true, animation.BlendMode.NORMAL, 0, -70, 100⟩] (fun s => if s = "Idle" then (some 1 : Option Nat) else none) "b" "A").toOption.getD ([], [])).2)
    (by decide) (by decide) (by decide) rfl (by decide) rfl rfl rfl

/-- Witness for C7: a COPY config "Bad" referencing the unknown name
"Missing" makes the run fail with no file writes. -/
theorem bad_reference_fails_before_output_witness :
    (∀ res, builder.build_all 192 [⟨"Idle", processor.AnimationType.FOLDER, none, none, 30, true, animation.BlendMode.NORMAL, 0, -70, 100⟩, ⟨"Bad", processor.AnimationType.COPY, none, some "Missing", 30, true, animation.BlendMode.NORMAL, 0, -70, 100⟩] (fun _ => (some 1 : Option Nat)) "b" "A" ≠ Except.ok res) ∧
    anim_maker.processAnimationsWrites 192 [⟨"Idle", processor.AnimationType.FOLDER, none, none, 30, true, animation.BlendMode.NORMAL, 0, -70, 100⟩, ⟨"Bad", processor.AnimationType.COPY, none, some "Missing", 30, true, animation.BlendMode.NORMAL, 0, -70, 100⟩] (fun _ => (some 1 : Option Nat)) "b" "A"
      (fun _ => ["out.bin"]) = [] :=
  bad_reference_fails_before_output 192 [⟨"Idle", processor.AnimationType.FOLDER, none, none, 30, true, animation.BlendMode.NORMAL, 0, -70, 100⟩, ⟨"Bad", processor.AnimationType.COPY, none, some "Missing", 30, true, animation.BlendMode.NORMAL, 0, -70, 100⟩] (fun _ => (some 1 : Option Nat)) "b" "A" (fun _ => ["out.bin"])
    (⟨"Bad", processor.AnimationType.COPY, none, some "Missing", 30, true, animation.BlendMode.NORMAL, 0, -70, 100⟩ : builder.AnimationConfig) (by decide) (by decide) (by decide)
    (Or.inr ⟨"Missing", rfl, by decide⟩)

/-- Claim C1 (code bug): at the failing input — one animation "Idle"
whose processed frames hold a single 192 by 192 canvas, common name
"Animation", and the Source the builder created for it (path
"Animation_Idle.xml", width and height 0) — the back-fill step of
`compile_animations` returns the Source unchanged: its width and height
stay 0 instead of becoming the first frame's canvas size 192, because
the loop looks the *filename* "Animation_Idle.xml" up among the
animation-name keys of `xml_paths` (here just "Idle"), so the back-fill
branch never runs. The path field equals the generated atlas filename
only because the builder already created it that way. -/
theorem compile_backfill_never_fires :
    compiler.update_sources [(⟨"Animation_Idle.xml", 0, 0, 0⟩ : builder.Source)]
      [("Idle", [(⟨192, 192⟩ : compiler.PImg)])] "Animation" =
      Except.ok [(⟨"Animation_Idle.xml", 0, 0, 0⟩ : builder.Source)] ∧
    compiler.xmlPathsOf [("Idle", [(⟨192, 192⟩ : compiler.PImg)])] "Animation" =
      [("Idle", "Animation_Idle.xml")] ∧
    compiler.lookupXml [("Idle", "Animation_Idle.xml")]
      (compiler.strReplace "Animation_Idle.xml" "BASENAME" "Animation") = none :=
  ⟨rfl, rfl, rfl⟩
